import Mathlib

/-!
Shallow embedding of the popup-store extraction/integration pipeline
(`extractors/date_extractor.py`, `extractors/location_extractor.py`,
`ai/gemini_service.py`, `models/event.py`, `processors/event_processor.py`,
`processors/data_integrator.py`).

Modelling conventions: Python strings are `List Char`; floats arising here
(confidence scores, similarity ratios) are `ℚ`; `datetime` values are calendar
dates at day granularity (`datetime.now()` becomes an explicit `today`
parameter, taken at midnight — no claim in scope depends on the time of day);
fallible Python code (constructor errors, `strptime`, `json.loads`) returns
`Option` or `Except`.  The extractor regexes are hand-compiled to backtracking
continuation-passing matchers with Python's leftmost-match, greedy semantics.
-/

abbrev Str := List Char

/-- Python's leap-year test as written in `date_extractor.py` line 87:
`year % 4 == 0 and (year % 100 != 0 or year % 400 == 0)`. -/
def isLeapYear (y : Int) : Bool :=
  y % 4 == 0 && (y % 100 != 0 || y % 400 == 0)

structure Date where
  year : Int
  month : Nat
  day : Nat
deriving DecidableEq, Repr

/-- Length of a month in the Gregorian calendar. -/
def daysInMonth (y : Int) (m : Nat) : Nat :=
  match m with
  | 2 => if isLeapYear y then 29 else 28
  | 4 | 6 | 9 | 11 => 30
  | _ => 31

/-- The triples accepted by Python's `datetime` constructor
(`datetime.MINYEAR = 1`, `datetime.MAXYEAR = 9999`). -/
def Date.valid (d : Date) : Bool :=
  1 ≤ d.year && d.year ≤ 9999 && 1 ≤ d.month && d.month ≤ 12 &&
    1 ≤ d.day && d.day ≤ daysInMonth d.year d.month

/-- The `datetime(year, month, day)` constructor; raises `ValueError`
(modelled as `none`) on an out-of-range date. -/
def mkDatetime (y : Int) (m d : Nat) : Option Date :=
  if (Date.mk y m d).valid then some ⟨y, m, d⟩ else none

/-- Day count of a date in the proleptic Gregorian calendar (shifted rata
die).  `datetime` comparison and `timedelta` day arithmetic are
order-isomorphic to this count, so the embedding compares dates and measures
day differences through it. -/
def Date.ordinal (dt : Date) : Int :=
  let y : Int := if dt.month ≤ 2 then dt.year - 1 else dt.year
  let era : Int := Int.fdiv y 400
  let yoe : Int := y - era * 400
  let mp : Nat := (dt.month + 9) % 12
  let doy : Int := Int.fdiv (153 * (mp : Int) + 2) 5 + (dt.day : Int) - 1
  let doe : Int := yoe * 365 + Int.fdiv yoe 4 - Int.fdiv yoe 100 + doy
  era * 146097 + doe - 719468

/-- Python `<` on (midnight) datetimes. -/
def dLt (a b : Date) : Bool := a.ordinal < b.ordinal

/-- Python `<=` on (midnight) datetimes. -/
def dLe (a b : Date) : Bool := a.ordinal ≤ b.ordinal

/-- Next day in the Gregorian calendar. -/
def succDay (d : Date) : Date :=
  if d.day < daysInMonth d.year d.month then ⟨d.year, d.month, d.day + 1⟩
  else if d.month < 12 then ⟨d.year, d.month + 1, 1⟩
  else ⟨d.year + 1, 1, 1⟩

/-- Model of `date + timedelta(days = n)` for `n ≥ 0`. -/
def addDays (n : Nat) (d : Date) : Date :=
  match n with
  | 0 => d
  | n + 1 => addDays n (succDay d)

/-- Decimal digit character. -/
def digitChar (n : Nat) : Char := Char.ofNat (48 + n)

/-- Decimal digit string of a natural number (minimal digits); structural
fuel so that it reduces inside the kernel (`n < fuel` always holds at the
call below). -/
def natDigitsAux : Nat → Nat → Str
  | 0, _ => []
  | fuel + 1, n =>
    if n < 10 then [digitChar n]
    else natDigitsAux fuel (n / 10) ++ [digitChar (n % 10)]

def natDigits (n : Nat) : Str := natDigitsAux (n + 1) n

/-- Python `str` of an integer; also glibc `strftime` `%Y`, which does not
zero-pad the year. -/
def intDecimal (i : Int) : Str :=
  if i < 0 then '-' :: natDigits i.natAbs else natDigits i.natAbs

/-- glibc `strftime` `%m`/`%d`/`%H`/`%M`/`%S`: zero-padded to two digits. -/
def pad2 (n : Nat) : Str :=
  if n < 10 then ['0', digitChar n] else natDigits n

/-- Python `date.strftime("%Y-%m-%d")`. -/
def formatDate (d : Date) : Str :=
  intDecimal d.year ++ '-' :: pad2 d.month ++ '-' :: pad2 d.day

structure DateTime where
  date : Date
  hour : Nat
  minute : Nat
  second : Nat
deriving DecidableEq, Repr

/-- Python `datetime.strftime("%Y-%m-%d %H:%M:%S")`. -/
def formatDateTime (t : DateTime) : Str :=
  formatDate t.date ++ ' ' :: pad2 t.hour ++ ':' :: pad2 t.minute ++
    ':' :: pad2 t.second

/-! Hand-compiled regex fragment.  Each matcher is anchored at the current
position and written in continuation-passing style so that bounded
quantifiers (`\d{1,2}`) and starred classes backtrack exactly as Python's
`re` does. -/

def isDig (c : Char) : Bool := '0' ≤ c && c ≤ '9'

def digVal (c : Char) : Nat := c.toNat - 48

/-- ASCII whitespace for `\s` (the texts in scope have no exotic spaces). -/
def isWs (c : Char) : Bool := c == ' ' || c == '\t' || c == '\n' || c == '\r'

/-- Literal character. -/
def chP {α : Type} (c : Char) (k : Str → Option α) : Str → Option α
  | [] => none
  | a :: rest => if a = c then k rest else none

/-- Literal string. -/
def strP {α : Type} (cs : Str) (k : Str → Option α) : Str → Option α :=
  match cs with
  | [] => k
  | c :: cs' => chP c (strP cs' k)

/-- Pattern `\s*`; in every regex in scope it is followed by a
non-whitespace token, so plain greedy consumption is exact. -/
def wsStar {α : Type} (k : Str → Option α) (s : Str) : Option α :=
  k (s.dropWhile isWs)

/-- One character from a class. -/
def clsP {α : Type} (p : Char → Bool) (k : Str → Option α) : Str → Option α
  | [] => none
  | a :: rest => if p a then k rest else none

/-- Greedy star over a character class, with backtracking. -/
def clsStar {α : Type} (p : Char → Bool) (k : Str → Option α) : Str → Option α
  | [] => k []
  | a :: rest =>
    if p a then (clsStar p k rest) <|> k (a :: rest) else k (a :: rest)

/-- Greedy plus over a character class, with backtracking. -/
def clsPlus {α : Type} (p : Char → Bool) (k : Str → Option α) : Str → Option α :=
  clsP p (clsStar p k)

/-- Capture group `(\d{1,2})`: greedy, prefers two digits, backtracks to one. -/
def d12 {α : Type} (k : Nat → Str → Option α) : Str → Option α
  | [] => none
  | c1 :: rest1 =>
    if isDig c1 then
      match rest1 with
      | c2 :: rest2 =>
        if isDig c2 then
          k (digVal c1 * 10 + digVal c2) rest2 <|> k (digVal c1) rest1
        else k (digVal c1) rest1
      | [] => k (digVal c1) []
    else none

/-- Capture group `(\d{4})`: exactly four digits. -/
def d4 {α : Type} (k : Nat → Str → Option α) : Str → Option α
  | c1 :: c2 :: c3 :: c4 :: rest =>
    if isDig c1 && isDig c2 && isDig c3 && isDig c4 then
      k (digVal c1 * 1000 + digVal c2 * 100 + digVal c3 * 10 + digVal c4) rest
    else none
  | _ => none

def isDotSlash (c : Char) : Bool := c == '.' || c == '/'

def isTildeDash (c : Char) : Bool := c == '~' || c == '-'

def isSlashWol (c : Char) : Bool := c == '/' || c == '월'

/-- Regex 1, `(\d{1,2})월\s*(\d{1,2})일부터\s*(\d{1,2})월\s*(\d{1,2})일까지`. -/
def pRangeKorean : Str → Option ((Nat × Nat × Nat × Nat) × Str) :=
  d12 fun m1 => chP '월' <| wsStar <| d12 fun d1 => strP "일부터".toList <|
    wsStar <| d12 fun m2 => chP '월' <| wsStar <| d12 fun d2 =>
      strP "일까지".toList <| fun rest => some ((m1, d1, m2, d2), rest)

/-- Regex 2, `(\d{1,2})[./](\d{1,2})\s*[\~\-]\s*(\d{1,2})[./](\d{1,2})`. -/
def pRangeSlash : Str → Option ((Nat × Nat × Nat × Nat) × Str) :=
  d12 fun m1 => clsP isDotSlash <| d12 fun d1 => wsStar <| clsP isTildeDash <|
    wsStar <| d12 fun m2 => clsP isDotSlash <| d12 fun d2 => fun rest =>
      some ((m1, d1, m2, d2), rest)

/-- Regex 3, `(\d{1,2})월\s*한달간`. -/
def pMonthLong : Str → Option (Nat × Str) :=
  d12 fun m => chP '월' <| wsStar <| strP "한달간".toList <| fun rest =>
    some (m, rest)

/-- Regex 4, `\~\s*(\d{1,2})[/월]\s*(\d{1,2})[일]*`. -/
def pTildeEnd : Str → Option ((Nat × Nat) × Str) :=
  chP '~' <| wsStar <| d12 fun m => clsP isSlashWol <| wsStar <|
    d12 fun d => clsStar (fun c => c == '일') <| fun rest => some ((m, d), rest)

/-- Regex 5, `(\d{4})년\s*(\d{1,2})월\s*(\d{1,2})일`. -/
def pSingleYearKorean : Str → Option ((Nat × Nat × Nat) × Str) :=
  d4 fun y => chP '년' <| wsStar <| d12 fun m => chP '월' <| wsStar <|
    d12 fun d => chP '일' <| fun rest => some ((y, m, d), rest)

/-- Regex 6, `(\d{4})-(\d{1,2})-(\d{1,2})`. -/
def pSingleYearDash : Str → Option ((Nat × Nat × Nat) × Str) :=
  d4 fun y => chP '-' <| d12 fun m => chP '-' <| d12 fun d => fun rest =>
    some ((y, m, d), rest)

/-- Regex 7, `(\d{1,2})월\s*(\d{1,2})일`. -/
def pSingleKorean : Str → Option ((Nat × Nat) × Str) :=
  d12 fun m => chP '월' <| wsStar <| d12 fun d => chP '일' <| fun rest =>
    some ((m, d), rest)

/-- Regex 8, `(\d{1,2})[./](\d{1,2})`. -/
def pSingleSlash : Str → Option ((Nat × Nat) × Str) :=
  d12 fun m => clsP isDotSlash <| d12 fun d => fun rest => some ((m, d), rest)

/-- Drives a compiled pattern like `re.finditer` plus the extractor's
`try/except continue` loop: scan left to right; at the leftmost match run
the handler; a handler failure (a swallowed exception) resumes scanning
after the matched text.  Every pattern in scope consumes at least one
character, so `length + 1` fuel suffices. -/
def scanWith {γ β : Type} (pat : Str → Option (γ × Str)) (handle : γ → Option β) :
    Nat → Str → Option β
  | 0, _ => none
  | fuel + 1, s =>
    match pat s with
    | some (g, rest) =>
      match handle g with
      | some b => some b
      | none => scanWith pat handle fuel rest
    | none =>
      match s with
      | [] => none
      | _ :: t => scanWith pat handle fuel t

def findIter {γ β : Type} (pat : Str → Option (γ × Str)) (handle : γ → Option β)
    (s : Str) : Option β :=
  scanWith pat handle (s.length + 1) s

/-- First match of a pattern in a text (groups of the leftmost match). -/
def firstMatch {γ : Type} (pat : Str → Option (γ × Str)) (s : Str) : Option γ :=
  findIter pat some s

/-- Python substring test `sub in s` (prefix check, used below). -/
def strStarts (pre s : Str) : Bool :=
  match pre, s with
  | [], _ => true
  | _ :: _, [] => false
  | a :: ps, b :: ss => a == b && strStarts ps ss

/-- Python substring test `sub in s`. -/
def strHas (sub : Str) : Str → Bool
  | [] => sub.isEmpty
  | c :: rest => strStarts sub (c :: rest) || strHas sub rest

/-- The result dictionary of `DateExtractor.extract_dates`. -/
structure DateInfo where
  startDate : Str
  endDate : Str
  dtype : Str
  confidence : ℚ
deriving DecidableEq, Repr

/-- Source text of regex 3 (used by the code's `'month' in pattern` test). -/
def pat3Src : Str := "(\\d\x7b1,2\x7d)월\\s*한달간".toList

/-- Source text of regex 4. -/
def pat4Src : Str := "\\~\\s*(\\d\x7b1,2\x7d)[/월]\\s*(\\d\x7b1,2\x7d)[일]*".toList

/-- Source text of regex 5 (used by the code's `'-' in pattern` test). -/
def pat5Src : Str := "(\\d\x7b4\x7d)년\\s*(\\d\x7b1,2\x7d)월\\s*(\\d\x7b1,2\x7d)일".toList

/-- Source text of regex 6. -/
def pat6Src : Str := "(\\d\x7b4\x7d)-(\\d\x7b1,2\x7d)-(\\d\x7b1,2\x7d)".toList

/-- Handler for the `'explicit'` branch (`date_extractor.py` lines 55-72). -/
def explicitHandler (year : Int) (g : Nat × Nat × Nat × Nat) : Option DateInfo :=
  match g with
  | (m1, d1, m2, d2) => do
    let startDate ← mkDatetime year m1 d1
    let endDate0 ← mkDatetime year m2 d2
    let endDate ←
      if dLt endDate0 startDate then
        if m1 > m2 then mkDatetime (year + 1) m2 d2 else pure endDate0
      else pure endDate0
    some { startDate := formatDate startDate, endDate := formatDate endDate,
           dtype := "explicit".toList, confidence := 0.9 }

/-- The full-calendar-month arm of the `'month'` branch (lines 77-89),
including its own leap-year computation. -/
def monthFullInfo (year : Int) (m : Nat) : Option DateInfo := do
  let startDate ← mkDatetime year m 1
  let lastDay :=
    if [1, 3, 5, 7, 8, 10, 12].contains m then 31
    else if [4, 6, 9, 11].contains m then 30
    else if m == 2 then (if isLeapYear year then 29 else 28)
    else 28
  let endDate ← mkDatetime year m lastDay
  some { startDate := formatDate startDate, endDate := formatDate endDate,
         dtype := "month".toList, confidence := 0.7 }

/-- Handler for a `"N월 한달간"` match (lines 74-108).  The code dispatches on
`'month' in pattern`, i.e. on the literal text `month` occurring in the regex
source — false for this regex — so the `else` arm runs and its
`match.group(2)` raises `IndexError` (this regex has a single group), which
the `except` swallows. -/
def monthLongHandler (year : Int) (_today : Date) (m : Nat) : Option DateInfo :=
  if strHas "month".toList pat3Src then monthFullInfo year m
  else none

/-- Handler for a `"~MM/DD"` match (lines 74-108); here too
`'month' in pattern` is false, so the dangling-end arm (lines 91-101) runs,
with `datetime.now()` as the start. -/
def tildeEndHandler (year : Int) (today : Date) (g : Nat × Nat) : Option DateInfo :=
  if strHas "month".toList pat4Src then monthFullInfo year g.1
  else
    match g with
    | (m, d) => do
      let endDate0 ← mkDatetime year m d
      let startDate := today
      let endDate ←
        if dLt endDate0 startDate then mkDatetime (year + 1) m d
        else pure endDate0
      some { startDate := formatDate startDate, endDate := formatDate endDate,
             dtype := "month".toList, confidence := 0.7 }

/-- Handler for the `'single_with_year'` branch (lines 110-126).  The
`'-' in pattern` test selects between two identical assignments; the sum
`start + timedelta(days=7)` raises `OverflowError` past `datetime.max`,
which the `except` swallows. -/
def singleYearHandler (patSrc : Str) (g : Nat × Nat × Nat) : Option DateInfo :=
  match g with
  | (y, m, d) => do
    let startDate ←
      if strHas "-".toList patSrc then mkDatetime (y : Int) m d
      else mkDatetime (y : Int) m d
    let endDate := addDays 7 startDate
    if endDate.valid then
      some { startDate := formatDate startDate, endDate := formatDate endDate,
             dtype := "single_with_year".toList, confidence := 0.8 }
    else none

/-- Handler for the `'single'` branch (lines 128-145):
`start < now - timedelta(days=3)` rolls the date into the next year. -/
def singleHandler (year : Int) (today : Date) (g : Nat × Nat) : Option DateInfo :=
  match g with
  | (m, d) => do
    let start0 ← mkDatetime year m d
    let startDate ←
      if start0.ordinal < today.ordinal - 3 then mkDatetime (year + 1) m d
      else pure start0
    let endDate := addDays 7 startDate
    if endDate.valid then
      some { startDate := formatDate startDate, endDate := formatDate endDate,
             dtype := "single".toList, confidence := 0.6 }
    else none

/-- `DateExtractor.extract_dates` (lines 17-151): the eight regexes in
priority order, each scanned with `finditer`, each match run through its
branch with exceptions skipping to the next match. -/
def extract_dates (year : Int) (today : Date) (text : Str) : Option DateInfo :=
  (findIter pRangeKorean (explicitHandler year) text) <|>
  (findIter pRangeSlash (explicitHandler year) text) <|>
  (findIter pMonthLong (monthLongHandler year today) text) <|>
  (findIter pTildeEnd (tildeEndHandler year today) text) <|>
  (findIter pSingleYearKorean (singleYearHandler pat5Src) text) <|>
  (findIter pSingleYearDash (singleYearHandler pat6Src) text) <|>
  (findIter pSingleKorean (singleHandler year today) text) <|>
  (findIter pSingleSlash (singleHandler year today) text)

/-! Embedding of `extractors/location_extractor.py`. -/

/-- Shorthand for Korean string literals. -/
def ks (s : String) : Str := s.toList

/-- The venue gazetteer, flattened in the dict-iteration order
`buildings, streets, areas` used by the double loop in
`extract_location` (lines 14-26, 62-72).  The Python source is missing a
comma after `"성수동 아틀리에"`, so adjacent-literal concatenation fuses it
with `"성수역"` into one entry. -/
def venuesAll : List Str :=
  [ks "언더스탠드에비뉴", ks "대림창고", ks "에스팩토리", ks "성수연방",
   ks "성수동 아틀리에성수역", ks "서울숲역", ks "뚝섬역", ks "건대입구역",
   ks "아크앤북", ks "성수연방",
   ks "연무장길", ks "성수이로", ks "성수일로", ks "서울숲2길", ks "서울숲4길",
   ks "성수동", ks "서울숲", ks "성수", ks "뚝섬", ks "성동구"]

/-- The brand-store gazetteer (lines 29-35), in dict order. -/
def brandStores : List (Str × List Str) :=
  [(ks "무신사", [ks "무신사 테라스", ks "무신사 스튜디오", ks "무신사 스토어"]),
   (ks "나이키", [ks "나이키 성수", ks "나이키 서울"]),
   (ks "아디다스", [ks "아디다스 성수"]),
   (ks "언더아머", [ks "언더아머 성수"]),
   (ks "아크네", [ks "아크네 스튜디오 성수"])]

/-- Hangul-syllable block, the `가-힣` character range. -/
def isHangulSyl (c : Char) : Bool := 0xAC00 ≤ c.toNat && c.toNat ≤ 0xD7A3

/-- Class `[가-힣\d\-]`. -/
def isAddrChar (c : Char) : Bool := isHangulSyl c || isDig c || c == '-'

/-- Class `[\w\d]` (`\w` restricted to the alphabets these texts use:
ASCII letters, digits, underscore, Hangul syllables). -/
def isWordChar (c : Char) : Bool :=
  c.isAlpha || isDig c || c == '_' || isHangulSyl c

/-- Address regex 1, `서울\s*성동구\s*성수동\d가\s*\d+[가-힣\d\-]+`. -/
def pAddr1 : Str → Option Str :=
  strP (ks "서울") <| wsStar <| strP (ks "성동구") <| wsStar <|
    strP (ks "성수동") <| clsP isDig <| chP '가' <| wsStar <|
    clsPlus isDig <| clsPlus isAddrChar <| fun rest => some rest

/-- Address regex 2, `성수동\d가\s*\d+[가-힣\d\-]+`. -/
def pAddr2 : Str → Option Str :=
  strP (ks "성수동") <| clsP isDig <| chP '가' <| wsStar <|
    clsPlus isDig <| clsPlus isAddrChar <| fun rest => some rest

/-- Address regex 3, `성동구\s*성수동\s*\d+[가-힣\d\-]+`. -/
def pAddr3 : Str → Option Str :=
  strP (ks "성동구") <| wsStar <| strP (ks "성수동") <| wsStar <|
    clsPlus isDig <| clsPlus isAddrChar <| fun rest => some rest

/-- Address regex 4, `서울\s*성동구\s*[\w\d]+로\s*\d+`. -/
def pAddr4 : Str → Option Str :=
  strP (ks "서울") <| wsStar <| strP (ks "성동구") <| wsStar <|
    clsPlus isWordChar <| chP '로' <| wsStar <| clsPlus isDig <| fun rest =>
      some rest

/-- Address regex 5, `서울시\s*성동구\s*[\w\d]+로\s*\d+`. -/
def pAddr5 : Str → Option Str :=
  strP (ks "서울시") <| wsStar <| strP (ks "성동구") <| wsStar <|
    clsPlus isWordChar <| chP '로' <| wsStar <| clsPlus isDig <| fun rest =>
      some rest

/-- Driver for `re.search`: leftmost match, returning the matched text
(`match.group(0)`). -/
def reSearch (pat : Str → Option Str) : Nat → Str → Option Str
  | 0, _ => none
  | fuel + 1, s =>
    match pat s with
    | some rest => some (s.take (s.length - rest.length))
    | none =>
      match s with
      | [] => none
      | _ :: t => reSearch pat fuel t

def search (pat : Str → Option Str) (s : Str) : Option Str :=
  reSearch pat (s.length + 1) s

/-- First address pattern that matches (lines 92-98 break on the first). -/
def addrSearch (t : Str) : Option Str :=
  search pAddr1 t <|> search pAddr2 t <|> search pAddr3 t <|>
    search pAddr4 t <|> search pAddr5 t

/-- Transit regex `성수역\s*\d+번\s*출구` and its two siblings. -/
def pTransit (station : Str) : Str → Option Str :=
  strP station <| wsStar <| clsPlus isDig <| chP '번' <| wsStar <|
    strP (ks "출구") <| fun rest => some rest

/-- First transit pattern that matches (lines 101-111). -/
def transitSearch (t : Str) : Option Str :=
  search (pTransit (ks "성수역")) t <|> search (pTransit (ks "서울숲역")) t <|>
    search (pTransit (ks "뚝섬역")) t

/-- The working dictionary of `extract_location` (lines 54-60); the constant
`coordinates` entry is omitted from the model, no code in scope reads it. -/
structure LocInfo where
  place : Str
  address : Str
  transit : Str
  confidence : ℚ
deriving DecidableEq, Repr

def locInit : LocInfo :=
  { place := ks "미정", address := ks "미정", transit := [], confidence := 0 }

/-- Signal source 1 (lines 62-72): first gazetteer venue occurring in the
text sets `place` and assigns confidence `0.7`. -/
def venueStep (t : Str) (r : LocInfo) : LocInfo :=
  match venuesAll.find? (fun v => strHas v t) with
  | some v => { r with place := v, confidence := 0.7 }
  | none => r

/-- Signal source 2 (lines 74-90): first brand occurring in the text; a
known store of that brand assigns confidence `0.8`, otherwise the
synthesized `"{brand} 성수"` assigns `0.6`; both are plain assignments. -/
def brandStep (t : Str) (r : LocInfo) : LocInfo :=
  match brandStores.find? (fun bs => strHas bs.1 t) with
  | none => r
  | some (brand, stores) =>
    match stores.find? (fun st => strHas st t) with
    | some st => { r with place := st, confidence := 0.8 }
    | none => { r with place := brand ++ ks " 성수", confidence := 0.6 }

/-- Signal source 3 (lines 92-98): an address match raises confidence to
`max(current, 0.9)` and sets `address`. -/
def addressStep (t : Str) (r : LocInfo) : LocInfo :=
  match addrSearch t with
  | some m => { r with address := m, confidence := max r.confidence 0.9 }
  | none => r

/-- Transit extraction (lines 100-111), confidence untouched. -/
def transitStep (t : Str) (r : LocInfo) : LocInfo :=
  match transitSearch t with
  | some m => { r with transit := m }
  | none => r

/-- `LocationExtractor.extract_location` (lines 46-117). -/
def extract_location (t : Str) : Option LocInfo :=
  let r := transitStep t (addressStep t (brandStep t (venueStep t locInit)))
  if r.confidence < 0.1 && r.place == ks "미정" && r.address == ks "미정" then
    none
  else some r

/-! Embedding of `models/event.py`. -/

structure Coord where
  lat : ℚ
  lng : ℚ
deriving DecidableEq, Repr

/-- `EventLocation` dataclass (defaults `"미정"`, `"미정"`, `(0,0)`, `""`). -/
structure EventLocation where
  place : Str
  address : Str
  coordinates : Coord
  transit : Str
deriving DecidableEq, Repr

def EventLocation.default : EventLocation :=
  { place := ks "미정", address := ks "미정", coordinates := ⟨0, 0⟩, transit := [] }

/-- `EventPeriod` dataclass.  The period dates are modelled at day
granularity (everything the pipeline does with them — `strftime("%Y-%m-%d")`,
comparison, `.days` differences — factors through the calendar day). -/
structure EventPeriod where
  start_date : Option Date
  end_date : Option Date
deriving DecidableEq, Repr

/-- `EventPeriod.is_valid`. -/
def EventPeriod.is_valid (p : EventPeriod) : Bool := p.start_date.isSome

/-- `EventDetails` dataclass. -/
structure EventDetails where
  introduction : List Str
  contents : List Str
  visitor_info : List Str
deriving DecidableEq, Repr

/-- `OperatingHours` dataclass (`start`/`end` renamed: `end` is reserved). -/
structure OperatingHours where
  startH : Str
  endH : Str
deriving DecidableEq, Repr

/-- The `Event` dataclass.  `period` and `location` are `Option` because the
assembler's `_create_preliminary_event` passes `None` for them; Python's
dataclass field type hints are not enforced.  `reasoning` is the attribute
`_enhance_with_ai` sets dynamically (absent until then). -/
structure Event where
  title : Str
  brand : Str
  period : Option EventPeriod
  location : Option EventLocation
  operating_hours : OperatingHours
  details : EventDetails
  source_urls : List Str
  confidence : ℚ
  collected_at : DateTime
  reasoning : Option Str
deriving DecidableEq, Repr

/-- `Event.is_valid` (`models/event.py` lines 59-65), with Python's
short-circuit evaluation: `bool(self.title) and self.period.is_valid() and
bool(self.location.place)`; attribute access on a `None` period/location
raises (`.error`). -/
def Event.is_valid (e : Event) : Except Unit Bool :=
  if e.title.isEmpty then .ok false
  else
    match e.period with
    | none => .error ()
    | some p =>
      if ¬ p.is_valid then .ok false
      else
        match e.location with
        | none => .error ()
        | some l => .ok (¬ l.place.isEmpty)

/-- The plain-record shape produced by `Event.to_dict` (the on-disk JSON
representation, flattened field-for-field). -/
structure EventRec where
  title : Str
  brand : Str
  periodStart : Option Str
  periodEnd : Option Str
  locPlace : Str
  locAddress : Str
  locCoordinates : Coord
  locTransit : Str
  ohStart : Str
  ohEnd : Str
  detailsIntroduction : List Str
  detailsContents : List Str
  detailsVisitorInfo : List Str
  source_urls : List Str
  confidence : ℚ
  collected_at : Str
deriving DecidableEq, Repr

/-- `Event.to_dict` (lines 67-94); the attribute chains
`self.period.start_date`/`self.location.place` raise on `None` (modelled as
`none`). -/
def Event.to_dict (e : Event) : Option EventRec :=
  match e.period, e.location with
  | some p, some l =>
    some { title := e.title
           brand := e.brand
           periodStart := p.start_date.map formatDate
           periodEnd := p.end_date.map formatDate
           locPlace := l.place
           locAddress := l.address
           locCoordinates := l.coordinates
           locTransit := l.transit
           ohStart := e.operating_hours.startH
           ohEnd := e.operating_hours.endH
           detailsIntroduction := e.details.introduction
           detailsContents := e.details.contents
           detailsVisitorInfo := e.details.visitor_info
           source_urls := e.source_urls
           confidence := e.confidence
           collected_at := formatDateTime e.collected_at }
  | _, _ => none

/-- `datetime.strptime(s, "%Y-%m-%d")`: exactly four year digits, one or two
month/day digits, the whole string consumed, then range validation.  The
shape coincides with regex 6, so the matcher is reused. -/
def parseYMD (s : Str) : Option Date :=
  match pSingleYearDash s with
  | some ((y, m, d), []) => mkDatetime (y : Int) m d
  | _ => none

/-- Matcher for `"%Y-%m-%d %H:%M:%S"`. -/
def pDT : Str → Option ((Nat × Nat × Nat × Nat × Nat × Nat) × Str) :=
  d4 fun y => chP '-' <| d12 fun mo => chP '-' <| d12 fun d => chP ' ' <|
    d12 fun h => chP ':' <| d12 fun mi => chP ':' <| d12 fun se => fun rest =>
      some ((y, mo, d, h, mi, se), rest)

/-- `datetime.strptime(s, "%Y-%m-%d %H:%M:%S")`. -/
def parseDateTime (s : Str) : Option DateTime :=
  match pDT s with
  | some ((y, mo, d, h, mi, se), []) =>
    match mkDatetime (y : Int) mo d with
    | some dt => if h ≤ 23 && mi ≤ 59 && se ≤ 59 then some ⟨dt, h, mi, se⟩ else none
    | none => none
  | _ => none

/-- `Event.from_dict` (lines 96-138) on a record that has all keys.  An
unparseable period date raises `ValueError` out of the method (`.error`);
an unparseable `collected_at` is swallowed by the local `try/except` and the
field keeps its default `datetime.now()` (the `now` parameter). -/
def Event.from_dict (now : DateTime) (r : EventRec) : Except Unit Event := do
  let psd ←
    match r.periodStart with
    | none => Except.ok none
    | some s =>
      if s.isEmpty then Except.ok none
      else match parseYMD s with
        | some d => Except.ok (some d)
        | none => Except.error ()
  let ped ←
    match r.periodEnd with
    | none => Except.ok none
    | some s =>
      if s.isEmpty then Except.ok none
      else match parseYMD s with
        | some d => Except.ok (some d)
        | none => Except.error ()
  let ca :=
    if r.collected_at.isEmpty then now
    else (parseDateTime r.collected_at).getD now
  Except.ok
    { title := r.title
      brand := r.brand
      period := some ⟨psd, ped⟩
      location := some ⟨r.locPlace, r.locAddress, r.locCoordinates, r.locTransit⟩
      operating_hours := ⟨r.ohStart, r.ohEnd⟩
      details := ⟨r.detailsIntroduction, r.detailsContents, r.detailsVisitorInfo⟩
      source_urls := r.source_urls
      confidence := r.confidence
      collected_at := ca
      reasoning := none }

/-! Embedding of `processors/event_processor.py`. -/

/-- A raw record from the collector, as read by `process_event`
(`raw_event.get("title", "")` and friends). -/
structure RawEvent where
  title : Str
  description : Str
  link : Str
deriving DecidableEq, Repr

/-- The popup keyword list (`event_processor.py` lines 75-78). -/
def popupKeywords : List Str :=
  [ks "팝업", ks "팝업스토어", ks "pop-up", ks "popup", ks "pop up",
   ks "프리오픈", ks "오픈", ks "open", ks "런칭", ks "시즌", ks "한정"]

/-- `str.lower()`; only ASCII letters occur in the keyword list, and Hangul
has no case, so the ASCII mapping is exact here. -/
def lowerStr (s : Str) : Str := s.map Char.toLower

/-- `_is_likely_popup_store` (lines 70-80). -/
def is_likely_popup_store (title description : Str) : Bool :=
  let combined := lowerStr (title ++ ks " " ++ description)
  popupKeywords.any (fun kw => strHas kw combined)

/-- The fields declared by the `Event` dataclass (`models/event.py`
lines 46-57), in declaration order. -/
def eventFieldNames : List String :=
  ["title", "brand", "period", "location", "operating_hours", "details",
   "source_urls", "confidence", "collected_at"]

/-- The keyword arguments `_create_preliminary_event` passes to `Event(...)`
(`event_processor.py` lines 94-100). -/
def prelimCallKwargs : List String :=
  ["title", "description", "period", "location", "source_url"]

/-- `_create_preliminary_event` (lines 82-100): calling the dataclass
`__init__` with a keyword argument it does not declare raises `TypeError`
(`.error`).  `description` and `source_url` are not `Event` fields, so the
guard fails; the `.ok` branch is unreachable and its payload immaterial. -/
def _create_preliminary_event (now : DateTime) (title _description : Str)
    (_dateInfo : Option DateInfo) (_locInfo : Option LocInfo)
    (_sourceUrl : Str) : Except Unit Event :=
  if prelimCallKwargs.all (fun kw => eventFieldNames.contains kw) then
    .ok { title := title, brand := [], period := none, location := none,
          operating_hours := ⟨[], []⟩, details := ⟨[], [], []⟩,
          source_urls := [], confidence := 0, collected_at := now,
          reasoning := none }
  else .error ()

/-- The dictionary `GeminiService.analyze_event` would return, field for
field (`.get` on a possibly missing key is an `Option`).  The AI's date
strings are typed as dates here; nothing in scope depends on them, since
the enrichment step is unreachable (see `_create_preliminary_event`). -/
structure AIInfo where
  brand : Option Str
  start_date : Option Date
  end_date : Option Date
  place : Option Str
  address : Option Str
  confidence : Option ℚ
  reasoning : Option Str
deriving DecidableEq, Repr

/-- `_enhance_with_ai` (lines 102-118): on an AI result, overwrite `brand`
unconditionally (`None` when the key is missing, modelled as the empty
string) and the other fields only when the AI value is truthy; the
attribute chains `event.period.start_date` / `event.location.place` raise
on a `None` period/location. -/
def _enhance_with_ai (ai : Option AIInfo) (e : Event) : Except Unit (Option Event) :=
  match ai with
  | none => .ok none
  | some info =>
    match e.period, e.location with
    | some p, some l =>
      .ok (some
        { e with
          brand := info.brand.getD []
          period := some ⟨info.start_date <|> p.start_date,
                          info.end_date <|> p.end_date⟩
          location := some
            { l with
              place := match info.place with
                | some s => if s.isEmpty then l.place else s
                | none => l.place
              address := match info.address with
                | some s => if s.isEmpty then l.address else s
                | none => l.address }
          confidence := info.confidence.getD e.confidence
          reasoning := info.reasoning })
    | _, _ => .error ()

/-- `_is_valid_event` (lines 120-129): truthiness of the attributes
`title`, `period`, `location` — a string is truthy iff non-empty, a
dataclass instance is always truthy, `None` is falsy. -/
def _is_valid_event (e : Event) : Bool :=
  ¬ e.title.isEmpty && e.period.isSome && e.location.isSome

/-- `EventProcessor.process_event` (lines 20-68).  `year`/`today`/`now` stand
for `datetime.now()` at the extractor and dataclass defaults; `ai` is the
response `GeminiService.analyze_event` would produce (`none` for every
failure mode of that call).  The enclosing `try/except` turns any raised
error into `None`. -/
def process_event (year : Int) (today : Date) (now : DateTime)
    (ai : Option AIInfo) (raw : RawEvent) : Option Event :=
  if ¬ is_likely_popup_store raw.title raw.description then none
  else
    let dateInfo :=
      extract_dates year today raw.description <|> extract_dates year today raw.title
    let locInfo := extract_location raw.description <|> extract_location raw.title
    match _create_preliminary_event now raw.title raw.description dateInfo
        locInfo raw.link with
    | .error _ => none
    | .ok event =>
      match _enhance_with_ai ai event with
      | .error _ => none
      | .ok enhanced =>
        let result := enhanced.getD event
        if _is_valid_event result then some result else none

/-! Embedding of `processors/data_integrator.py`. -/

/-- Length of the common run of two strings starting at their heads. -/
def runLen : Str → Str → Nat
  | a :: xs, b :: ys => if a = b then runLen xs ys + 1 else 0
  | _, _ => 0

/-- All `(i, j)` index pairs in row-major order. -/
def allPairs (n m : Nat) : List (Nat × Nat) :=
  (List.range n).flatMap (fun i => (List.range m).map (fun j => (i, j)))

/-- One step of the longest-matching-block maximization: strictly better
sizes win, so the earliest `i`, then earliest `j`, is kept among ties. -/
def lmStep (a b : Str) (best : Nat × Nat × Nat) (ij : Nat × Nat) : Nat × Nat × Nat :=
  let r := runLen (a.drop ij.1) (b.drop ij.2)
  if r > best.2.2 then (ij.1, ij.2, r) else best

/-- `difflib.SequenceMatcher.find_longest_match` over whole strings, per its
documented contract: the longest contiguous matching block `(i, j, size)`,
ties broken by earliest `i`, then earliest `j`.  (The `autojunk` heuristic,
which only activates on second strings of 200+ characters, is not modelled;
theorems below stay inside the shorter domain.) -/
def findLongestMatch (a b : Str) : Nat × Nat × Nat :=
  (allPairs a.length b.length).foldl (lmStep a b) (0, 0, 0)

/-- Total size of all matching blocks: recursively split around the longest
match, as `get_matching_blocks` does. -/
def matchingCharsGo (fuel : Nat) (a b : Str) : Nat :=
  match fuel with
  | 0 => 0
  | fuel + 1 =>
    let (i, j, k) := findLongestMatch a b
    if k = 0 then 0
    else
      matchingCharsGo fuel (a.take i) (b.take j) + k +
        matchingCharsGo fuel (a.drop (i + k)) (b.drop (j + k))

def matchingChars (a b : Str) : Nat := matchingCharsGo (a.length + 1) a b

/-- `SequenceMatcher.ratio()`: `2*M / T`; `difflib._calculate_ratio` returns
`1.0` when both strings are empty. -/
def smRatio (a b : Str) : ℚ :=
  if a.length + b.length = 0 then 1
  else 2 * (matchingChars a b : ℚ) / ((a.length : ℚ) + (b.length : ℚ))

/-- The character class `[\s\-_,\.;:\'"!?]` of `_calculate_similarity`. -/
def isPunctWs (c : Char) : Bool :=
  isWs c || c == '-' || c == '_' || c == ',' || c == '.' || c == ';' ||
    c == ':' || c == '\'' || c == '"' || c == '!' || c == '?'

/-- `re.sub(r'[\s\-_,\.;:\'"!?]+', '', s)`: removing every run of class
characters is removing every class character. -/
def stripPunct (s : Str) : Str := s.filter (fun c => ¬ isPunctWs c)

/-- `DataIntegrator._calculate_similarity` (lines 109-119): `0.0` when either
raw string is falsy, else the `SequenceMatcher` ratio of the lowercased,
punctuation-stripped strings. -/
def _calculate_similarity (s1 s2 : Str) : ℚ :=
  if s1.isEmpty || s2.isEmpty then 0
  else smRatio (stripPunct (lowerStr s1)) (stripPunct (lowerStr s2))

/-- `DataIntegrator._periods_overlap` (lines 121-132). -/
def _periods_overlap (p1 p2 : EventPeriod) : Bool :=
  match p1.start_date, p2.start_date with
  | some s1, some s2 =>
    let e1 := p1.end_date.getD s1
    let e2 := p2.end_date.getD s2
    dLe s1 e2 && dLe s2 e1
  | _, _ => false

/-- The title-similarity threshold (`self.similarity_threshold`, line 15). -/
def similarity_threshold : ℚ := 0.7

/-- The period-based arm of `_are_events_similar` (lines 82-97), entered when
`0.5 < title_similarity ≤ 0.7`.  Attribute access `eventN.period.start_date`
raises on a `None` period (with Python's short-circuit order), likewise
`eventN.location.place` on a `None` location. -/
def similarPeriodArm (e1 e2 : Event) : Except Unit Bool :=
  match e1.period with
  | none => .error ()
  | some p1 =>
    match p1.start_date with
    | none => .ok false
    | some s1 =>
      match e2.period with
      | none => .error ()
      | some p2 =>
        match p2.start_date with
        | none => .ok false
        | some s2 =>
          if s1 = s2 ∧ p1.end_date = p2.end_date then .ok true
          else if _periods_overlap p1 p2 then
            match e1.location, e2.location with
            | some l1, some l2 =>
              .ok (decide (_calculate_similarity l1.place l2.place > 0.7))
            | none, _ => .error ()
            | some _, none => .error ()
          else .ok false

/-- The same-brand arm of `_are_events_similar` (lines 99-105). -/
def similarBrandArm (e1 e2 : Event) : Except Unit Bool :=
  if ¬ e1.brand.isEmpty && ¬ e2.brand.isEmpty && e1.brand == e2.brand then
    match e1.period with
    | none => .error ()
    | some p1 =>
      match p1.start_date with
      | none => .ok false
      | some s1 =>
        match e2.period with
        | none => .error ()
        | some p2 =>
          match p2.start_date with
          | none => .ok false
          | some s2 => .ok (decide ((s1.ordinal - s2.ordinal).natAbs ≤ 3))
  else .ok false

/-- `DataIntegrator._are_events_similar` (lines 72-107). -/
def _are_events_similar (e1 e2 : Event) : Except Unit Bool := do
  let tsim := _calculate_similarity e1.title e2.title
  if tsim > similarity_threshold then return true
  else
    let fromPeriod ← if tsim > 0.5 then similarPeriodArm e1 e2 else pure false
    if fromPeriod then return true
    else
      let fromBrand ← similarBrandArm e1 e2
      return fromBrand

/-- One pass of the inner `while` of `_group_similar_events` (lines 58-66):
scan the remaining candidates once, moving each similar one into the
reference's group; a raised error aborts (left to right). -/
def splitSimilar (ref : Event) : List Event → Except Unit (List Event × List Event)
  | [] => .ok ([], [])
  | c :: cs => do
    let b ← _are_events_similar ref c
    let (sim, rest) ← splitSimilar ref cs
    if b then .ok (c :: sim, rest) else .ok (sim, c :: rest)

/-- The outer `while ungrouped` loop of `_group_similar_events`.  Each
iteration removes at least the reference, so `length` fuel suffices; the
fuel-exhausted arm is unreachable. -/
def groupLoop : Nat → List Event → Except Unit (List (List Event))
  | _, [] => .ok []
  | 0, _ :: _ => .ok []
  | fuel + 1, e :: rest => do
    let (sim, other) ← splitSimilar e rest
    let gs ← groupLoop fuel other
    .ok ((e :: sim) :: gs)

/-- `DataIntegrator._group_similar_events` (lines 47-70). -/
def _group_similar_events (events : List Event) : Except Unit (List (List Event)) :=
  groupLoop events.length events

/-- Python `max(group, key=lambda e: e.confidence)`: the first maximum. -/
def pyMaxByConf (g : Event) (gs : List Event) : Event :=
  gs.foldl (fun b y => if y.confidence > b.confidence then y else b) g

/-- `set.update` over all members' `source_urls`; the model keeps first
insertion order (claims compare membership only, as Python set order is
unspecified). -/
def pyUrlUnion (group : List Event) : List Str :=
  group.foldl
    (fun acc e => e.source_urls.foldl
      (fun acc' u => if acc'.contains u then acc' else acc' ++ [u]) acc) []

/-- `" ".join(parts)`. -/
def joinSpace : List Str → Str
  | [] => []
  | [x] => x
  | x :: y :: xs => x ++ ' ' :: joinSpace (y :: xs)

/-- The longest joined introduction over the group (lines 152-157). -/
def longestDesc (group : List Event) : Str :=
  group.foldl
    (fun best e =>
      if ¬ e.details.introduction.isEmpty then
        let d := joinSpace e.details.introduction
        if d.length > best.length then d else best
      else best) []

/-- One step of the best-location scan (lines 165-169):
`event.location.address != "미정" and best_location.address == "미정"`, with
attribute access on `None` raising, in Python's short-circuit order. -/
def locStep (best : Option EventLocation) (e : Event) :
    Except Unit (Option EventLocation) :=
  match e.location with
  | none => .error ()
  | some l =>
    if l.address ≠ ks "미정" then
      match best with
      | none => .error ()
      | some b => .ok (if b.address = ks "미정" then some l else some b)
    else .ok best

/-- `max(e.confidence for e in group)`. -/
def maxConf (g : Event) (gs : List Event) : ℚ :=
  gs.foldl (fun acc e => max acc e.confidence) g.confidence

/-- `DataIntegrator._merge_event_group` (lines 134-190): `None` for an empty
group, the sole member unchanged for a singleton, otherwise the merged
record; an exception in the merge body degrades to the group's first
member. -/
def _merge_event_group (group : List Event) : Option Event :=
  match group with
  | [] => none
  | [e] => some e
  | g :: gs =>
    let base := pyMaxByConf g gs
    let urls := pyUrlUnion (g :: gs)
    let ldesc := longestDesc (g :: gs)
    let mergedDetails :=
      if ¬ ldesc.isEmpty && base.details.introduction.isEmpty then
        { base.details with introduction := [ldesc] }
      else base.details
    match (g :: gs).foldlM locStep base.location with
    | .error _ => some g
    | .ok bestLoc =>
      some { title := base.title
             brand := base.brand
             period := base.period
             location := bestLoc
             operating_hours := base.operating_hours
             details := mergedDetails
             source_urls := urls
             confidence := maxConf g gs
             collected_at := base.collected_at
             reasoning := none }

/-- `DataIntegrator.integrate_events` (lines 17-45): empty input short-cut,
merge per group, drop falsy results; the top-level `except` returns the
original list. -/
def integrate_events (events : List Event) : List Event :=
  if events.isEmpty then []
  else
    match _group_similar_events events with
    | .error _ => events
    | .ok groups => (groups.map _merge_event_group).filterMap id

/-! Embedding of `ai/gemini_service.py` response parsing, with a model of
`json.loads` (objects, arrays, strings with the basic escapes, numbers,
literals; object keys follow dict semantics — duplicates keep the first
position, last value). -/

inductive Json where
  | null : Json
  | bool (b : Bool) : Json
  | num (q : ℚ) : Json
  | str (s : Str) : Json
  | arr (xs : List Json) : Json
  | obj (kvs : List (Str × Json)) : Json
deriving Repr

/-- JSON whitespace (`json.loads` skips exactly these four). -/
def jWs (c : Char) : Bool := c == ' ' || c == '\t' || c == '\n' || c == '\r'

def skipJWs (s : Str) : Str := s.dropWhile jWs

def hexVal (c : Char) : Option Nat :=
  if isDig c then some (digVal c)
  else if 'a' ≤ c && c ≤ 'f' then some (c.toNat - 87)
  else if 'A' ≤ c && c ≤ 'F' then some (c.toNat - 55)
  else none

/-- Body of a JSON string, after the opening quote. -/
def jStrBody (fuel : Nat) (s : Str) : Option (Str × Str) :=
  match fuel, s with
  | 0, _ => none
  | _, [] => none
  | fuel + 1, c :: rest =>
    if c = '"' then some ([], rest)
    else if c = '\\' then
      match rest with
      | [] => none
      | e :: rest' =>
        let dec : Option (Char × Str) :=
          if e = '"' then some ('"', rest')
          else if e = '\\' then some ('\\', rest')
          else if e = '/' then some ('/', rest')
          else if e = 'b' then some ('\x08', rest')
          else if e = 'f' then some ('\x0C', rest')
          else if e = 'n' then some ('\n', rest')
          else if e = 'r' then some ('\r', rest')
          else if e = 't' then some ('\t', rest')
          else if e = 'u' then
            match rest' with
            | h1 :: h2 :: h3 :: h4 :: rest'' => do
              let v1 ← hexVal h1
              let v2 ← hexVal h2
              let v3 ← hexVal h3
              let v4 ← hexVal h4
              let code := ((v1 * 16 + v2) * 16 + v3) * 16 + v4
              if 0xD800 ≤ code ∧ code ≤ 0xDFFF then none
              else some (Char.ofNat code, rest'')
            | _ => none
          else none
        match dec with
        | some (ch, rest'') =>
          match jStrBody fuel rest'' with
          | some (tail, rem) => some (ch :: tail, rem)
          | none => none
        | none => none
    else if c.toNat < 0x20 then none
    else
      match jStrBody fuel rest with
      | some (tail, rem) => some (c :: tail, rem)
      | none => none

/-- JSON number: `-?(0|[1-9]\d*)(\.\d+)?([eE][+-]?\d+)?`, as a rational. -/
def jNum (s : Str) : Option (ℚ × Str) :=
  let (neg, s1) :=
    match s with
    | '-' :: t => (true, t)
    | _ => (false, s)
  let intDigits := s1.takeWhile isDig
  let s2 := s1.dropWhile isDig
  if intDigits.isEmpty then none
  else if intDigits.length > 1 ∧ intDigits.headD '0' = '0' then none
  else
    let intVal : ℚ := (intDigits.foldl (fun acc c => acc * 10 + digVal c) 0 : Nat)
    let (fracVal, s3) :=
      match s2 with
      | '.' :: t =>
        let fd := t.takeWhile isDig
        let rest := t.dropWhile isDig
        if fd.isEmpty then ((none : Option ℚ), s2)
        else
          (some ((fd.foldl (fun acc c => acc * 10 + digVal c) 0 : Nat) /
            ((10 : ℚ) ^ fd.length)), rest)
      | _ => (none, s2)
    match fracVal, s3 with
    | none, '.' :: _ => none
    | _, _ =>
      let mantissa := intVal + (fracVal.getD 0)
      let expPart : Option (Int × Str) :=
        match s3 with
        | e :: t =>
          if e = 'e' ∨ e = 'E' then
            let (esign, t1) :=
              match t with
              | '+' :: u => ((1 : Int), u)
              | '-' :: u => ((-1 : Int), u)
              | _ => ((1 : Int), t)
            let ed := t1.takeWhile isDig
            if ed.isEmpty then none
            else some (esign * (ed.foldl (fun acc c => acc * 10 + digVal c) 0 : Nat),
              t1.dropWhile isDig)
          else none
        | [] => none
      match s3, expPart with
      | e :: _, none =>
        if e = 'e' ∨ e = 'E' then none
        else some ((if neg then -mantissa else mantissa), s3)
      | _, some (ex, rest) =>
        let v := mantissa * (10 : ℚ) ^ ex
        some ((if neg then -v else v), rest)
      | [], none => some ((if neg then -mantissa else mantissa), [])

/-- Python-dict insertion: replace in place when the key exists, else append. -/
def dictInsert (kvs : List (Str × Json)) (k : Str) (v : Json) : List (Str × Json) :=
  match kvs with
  | [] => [(k, v)]
  | (k', v') :: rest =>
    if k' = k then (k, v) :: rest else (k', v') :: dictInsert rest k v

mutual

/-- A JSON value; leading whitespace already skipped. -/
def jVal : Nat → Str → Option (Json × Str)
  | 0, _ => none
  | fuel + 1, s =>
    match s with
    | [] => none
    | c :: rest =>
      if c = '{' then jObj fuel (skipJWs rest) []
      else if c = '[' then jArr fuel (skipJWs rest)
      else if c = '"' then
        match jStrBody (rest.length + 1) rest with
        | some (body, rem) => some (.str body, rem)
        | none => none
      else if strStarts (ks "true") s then some (.bool true, s.drop 4)
      else if strStarts (ks "false") s then some (.bool false, s.drop 5)
      else if strStarts (ks "null") s then some (.null, s.drop 4)
      else
        match jNum s with
        | some (q, rem) => some (.num q, rem)
        | none => none

/-- Object members, starting after `{` (whitespace skipped), accumulating
into dict order. -/
def jObj : Nat → Str → List (Str × Json) → Option (Json × Str)
  | 0, _, _ => none
  | fuel + 1, s, acc =>
    match s with
    | '}' :: rest => some (.obj acc, rest)
    | '"' :: rest =>
      match jStrBody (rest.length + 1) rest with
      | some (key, rem) =>
        match skipJWs rem with
        | ':' :: rem2 =>
          match jVal fuel (skipJWs rem2) with
          | some (v, rem3) =>
            let acc' := dictInsert acc key v
            match skipJWs rem3 with
            | ',' :: rem4 =>
              match skipJWs rem4 with
              | '"' :: rem5 => jObj fuel ('"' :: rem5) acc'
              | _ => none
            | '}' :: rem4 => some (.obj acc', rem4)
            | _ => none
          | none => none
        | _ => none
      | none => none
    | _ => none

/-- Array items, starting after `[` (whitespace skipped). -/
def jArr : Nat → Str → Option (Json × Str)
  | 0, _ => none
  | fuel + 1, s =>
    match s with
    | ']' :: rest => some (.arr [], rest)
    | _ =>
      match jItems fuel s with
      | some (xs, rest) => some (.arr xs, rest)
      | none => none

def jItems : Nat → Str → Option (List Json × Str)
  | 0, _ => none
  | fuel + 1, s => do
    let (v, rest) ← jVal fuel s
    match skipJWs rest with
    | ',' :: rest2 =>
      match jItems fuel (skipJWs rest2) with
      | some (xs, rest3) => some (v :: xs, rest3)
      | none => none
    | ']' :: rest2 => some ([v], rest2)
    | _ => none

end

/-- `json.loads`: one value, with surrounding whitespace, whole input
consumed. -/
def jsonLoads (s : Str) : Option Json := do
  let (v, rest) ← jVal (s.length + 2) (skipJWs s)
  if (skipJWs rest).isEmpty then some v else none

/-- `s.find(c)`: index of the first occurrence, `-1` when absent. -/
def firstIdxAux (c : Char) : Str → Nat → Option Nat
  | [], _ => none
  | a :: rest, i => if a = c then some i else firstIdxAux c rest (i + 1)

def pyFind (c : Char) (s : Str) : Int :=
  match firstIdxAux c s 0 with
  | some i => (i : Int)
  | none => -1

/-- Index of the last occurrence. -/
def lastIdxAux (c : Char) : Str → Nat → Option Nat → Option Nat
  | [], _, acc => acc
  | a :: rest, i, acc => lastIdxAux c rest (i + 1) (if a = c then some i else acc)

def pyRFind (c : Char) (s : Str) : Int :=
  match lastIdxAux c s 0 none with
  | some i => (i : Int)
  | none => -1

def dictGet (kvs : List (Str × Json)) (k : Str) : Option Json :=
  (kvs.find? (fun p => p.1 == k)).map (fun p => p.2)

def dictHasKey (kvs : List (Str × Json)) (k : Str) : Bool :=
  kvs.any (fun p => p.1 == k)

/-- `float(s)` on a string: optional surrounding whitespace and sign, then
`digits[.digits][exp]`, `.digits[exp]` or `digits.` forms (the `inf`/`nan`
words do not arise here and are not modelled). -/
def pyFloatOfStr (s : Str) : Option ℚ :=
  let s1 := skipJWs s
  let (neg, s2) :=
    match s1 with
    | '-' :: t => (true, t)
    | '+' :: t => (false, t)
    | _ => (false, s1)
  let ip := s2.takeWhile isDig
  let s3 := s2.dropWhile isDig
  let ipVal : ℚ := (ip.foldl (fun acc c => acc * 10 + digVal c) 0 : Nat)
  let (fp, s4) :=
    match s3 with
    | '.' :: t => (t.takeWhile isDig, t.dropWhile isDig)
    | _ => ([], s3)
  let sawDot := s3 ≠ s4
  if ip.isEmpty ∧ fp.isEmpty then none
  else
    let fpVal : ℚ :=
      (fp.foldl (fun acc c => acc * 10 + digVal c) 0 : Nat) / ((10 : ℚ) ^ fp.length)
    let mant := ipVal + fpVal
    let expRes : Option (ℚ × Str) :=
      match s4 with
      | e :: t =>
        if e = 'e' ∨ e = 'E' then
          let (esign, t1) :=
            match t with
            | '+' :: u => ((1 : Int), u)
            | '-' :: u => ((-1 : Int), u)
            | _ => ((1 : Int), t)
          let ed := t1.takeWhile isDig
          if ed.isEmpty then none
          else some (mant * (10 : ℚ) ^
            (esign * (ed.foldl (fun acc c => acc * 10 + digVal c) 0 : Nat)),
            t1.dropWhile isDig)
        else some (mant, s4)
      | [] => some (mant, [])
    let _ := sawDot
    match expRes with
    | none => none
    | some (v, rest) =>
      if (skipJWs rest).isEmpty then some (if neg then -v else v) else none

/-- The `float(result["confidence"])` coercion with its
`except (ValueError, TypeError)` default of `0.5`; `float` of a bool is its
numeric value, of `None`/lists/dicts a `TypeError`. -/
def coerceConfidence (j : Json) : ℚ :=
  match j with
  | .num q => q
  | .bool b => if b then 1 else 0
  | .str s => (pyFloatOfStr s).getD 0.5
  | .null => 0.5
  | .arr _ => 0.5
  | .obj _ => 0.5

def requiredFields : List Str := [ks "title", ks "start_date", ks "location"]

/-- `GeminiService._parse_json_response` (lines 85-120). -/
def _parse_json_response (text : Str) : Option (List (Str × Json)) :=
  let js := pyFind '{' text
  let je := pyRFind '}' text + 1
  if js ≥ 0 ∧ je > js then
    let jsonStr := (text.take je.toNat).drop js.toNat
    match jsonLoads jsonStr with
    | none => none
    | some (.obj kvs) =>
      if ¬ requiredFields.all (fun f => dictHasKey kvs f) then none
      else
        match dictGet kvs (ks "confidence") with
        | some v => some (dictInsert kvs (ks "confidence") (.num (coerceConfidence v)))
        | none => some kvs
    | some _ => none
  else none

/-! Spec-side definitions: predicates and reference functions written from
the specification's wording, to be compared against the embedded code. -/

/-- The §3 validity invariant, from the spec's words: title non-empty AND
period present with a start date AND `location.place` non-empty. -/
def validCandidate (e : Event) : Bool :=
  ¬ e.title.isEmpty &&
  (match e.period with
   | some p => p.start_date.isSome
   | none => false) &&
  (match e.location with
   | some l => ¬ l.place.isEmpty
   | none => false)

/-- The location pipeline after the venue-gazetteer step. -/
def locAfterVenue (t : Str) : LocInfo := venueStep t locInit

/-- The location pipeline after the brand-store step. -/
def locAfterBrand (t : Str) : LocInfo := brandStep t (locAfterVenue t)

/-- The location pipeline after the address-pattern step. -/
def locAfterAddress (t : Str) : LocInfo := addressStep t (locAfterBrand t)

/-- Spec wording for the overlap test: a missing end date counts as the
period's own start date. -/
def endOrStart (s : Date) (e : Option Date) : Date :=
  match e with
  | some d => d
  | none => s

/-- The overlap relation as the spec words it: overlap iff
`A.start ≤ R.end_or_start` and `R.start ≤ A.end_or_start`; a missing start
date on either side means never overlapping. -/
def overlapSpec (p1 p2 : EventPeriod) : Bool :=
  match p1.start_date, p2.start_date with
  | some a, some r =>
    dLe a (endOrStart r p2.end_date) && dLe r (endOrStart a p1.end_date)
  | _, _ => false

/-- The substring from the first brace to the last brace of the response,
as the spec words it. -/
def extractBlock (text : Str) : Option Str :=
  match firstIdxAux '{' text 0, lastIdxAux '}' text 0 none with
  | some i, some j => if i ≤ j then some ((text.take (j + 1)).drop i) else none
  | _, _ => none

/-- The response parsing as the spec words it: take the first-brace to
last-brace substring, parse it as JSON, fail when any of `title`,
`start_date`, `location` is missing, coerce `confidence` (default `0.5` on
coercion failure). -/
def parseResponseSpec (text : Str) : Option (List (Str × Json)) :=
  match extractBlock text with
  | none => none
  | some sub =>
    match jsonLoads sub with
    | some (.obj kvs) =>
      if dictHasKey kvs (ks "title") && dictHasKey kvs (ks "start_date") &&
          dictHasKey kvs (ks "location") then
        match dictGet kvs (ks "confidence") with
        | some v => some (dictInsert kvs (ks "confidence") (.num (coerceConfidence v)))
        | none => some kvs
      else none
    | _ => none

/-- A date string is canonical when it parses and re-formats to itself. -/
def canonDateStr (s : Str) : Bool :=
  match parseYMD s with
  | some d => formatDate d == s
  | none => false

def canonOptDate (o : Option Str) : Bool :=
  match o with
  | none => true
  | some s => canonDateStr s

/-- A timestamp string is canonical when it parses and re-formats to itself. -/
def canonDateTimeStr (s : Str) : Bool :=
  match parseDateTime s with
  | some t => formatDateTime t == s
  | none => false

/-- A well-formed at-rest record: period dates are null or canonical date
strings, `collected_at` is a canonical timestamp. -/
def wellFormedRec (r : EventRec) : Bool :=
  canonOptDate r.periodStart && canonOptDate r.periodEnd &&
    canonDateTimeStr r.collected_at

/-- A valid wall-clock time of day. -/
def validTime (t : DateTime) : Bool :=
  t.hour ≤ 23 && t.minute ≤ 59 && t.second ≤ 59

/-- A date both `datetime`-valid and with a four-digit year (`strftime` pads
`%Y` only from four digits, and `strptime` demands exactly four). -/
def roundTripDate (d : Date) : Bool :=
  d.valid && 1000 ≤ d.year

/-- A fully populated candidate: period present with both dates, location
present, all dates four-digit-year valid, time of day valid. -/
def fullyPopulated (c : Event) : Bool :=
  (match c.period with
   | some p =>
     (match p.start_date with
      | some d => roundTripDate d
      | none => false) &&
     (match p.end_date with
      | some d => roundTripDate d
      | none => false)
   | none => false) &&
  c.location.isSome &&
  roundTripDate c.collected_at.date && validTime c.collected_at

/-- Python dataclass equality on `Event`: field-by-field over the declared
fields; the dynamically attached `reasoning` attribute does not participate
in `__eq__`. -/
def Event.pyEq (a b : Event) : Bool :=
  decide (a.title = b.title) && decide (a.brand = b.brand) &&
    decide (a.period = b.period) && decide (a.location = b.location) &&
    decide (a.operating_hours = b.operating_hours) &&
    decide (a.details = b.details) &&
    decide (a.source_urls = b.source_urls) &&
    decide (a.confidence = b.confidence) &&
    decide (a.collected_at = b.collected_at)

/-- An AI response with prose before and after a JSON block that lacks the
`location` key (the block itself is valid JSON). -/
def sampleResponse : Str :=
  ks "The event looks like this: \x7b \"title\": \"성수 팝업\", \"start_date\": \"2024-03-01\", \"confidence\": 0.9 \x7d — hope that helps!"

/-- A concrete candidate for the dedup witness. -/
def wEvent1 : Event :=
  { title := ks "팝업 Alpha", brand := [], period := none,
    location := some EventLocation.default, operating_hours := ⟨[], []⟩,
    details := ⟨[], [], []⟩, source_urls := [ks "http://a"],
    confidence := 0.5, collected_at := ⟨⟨2025, 1, 1⟩, 0, 0, 0⟩,
    reasoning := none }

/-- A second candidate whose title matches the first after lowercasing and
punctuation stripping. -/
def wEvent2 : Event :=
  { title := ks "팝업 alpha!", brand := [], period := none,
    location := some EventLocation.default, operating_hours := ⟨[], []⟩,
    details := ⟨[], [], []⟩, source_urls := [ks "http://b", ks "http://a"],
    confidence := 0.9, collected_at := ⟨⟨2025, 1, 2⟩, 0, 0, 0⟩,
    reasoning := none }

/-- A fixed `datetime.now()` stand-in for record-conversion statements. -/
def wNow : DateTime := ⟨⟨2025, 1, 1⟩, 0, 0, 0⟩

/-- A record whose period start date is unparseable. -/
def wRecBad : EventRec :=
  { title := ks "성수 팝업", brand := [], periodStart := some (ks "not-a-date"),
    periodEnd := none, locPlace := ks "성수", locAddress := ks "미정",
    locCoordinates := ⟨0, 0⟩, locTransit := [], ohStart := [], ohEnd := [],
    detailsIntroduction := [], detailsContents := [], detailsVisitorInfo := [],
    source_urls := [], confidence := 0.5,
    collected_at := ks "2025-01-01 00:00:00" }

/-- A well-formed at-rest record for the round-trip witness. -/
def wRecGood : EventRec :=
  { title := ks "팝업", brand := ks "무신사",
    periodStart := some (ks "2025-03-01"), periodEnd := none,
    locPlace := ks "성수", locAddress := ks "미정", locCoordinates := ⟨0, 0⟩,
    locTransit := [], ohStart := [], ohEnd := [], detailsIntroduction := [],
    detailsContents := [], detailsVisitorInfo := [], source_urls := [ks "u"],
    confidence := 0.5, collected_at := ks "2025-01-02 03:04:05" }

/-- A fully populated candidate for the round-trip witness. -/
def wEventFull : Event :=
  { title := ks "팝업", brand := [],
    period := some ⟨some ⟨2025, 3, 1⟩, some ⟨2025, 3, 10⟩⟩,
    location := some EventLocation.default, operating_hours := ⟨[], []⟩,
    details := ⟨[], [], []⟩, source_urls := [], confidence := 0.5,
    collected_at := ⟨⟨2025, 1, 2⟩, 3, 4, 5⟩, reasoning := none }

/-! Theorems.  Helper lemmas are shared; each claim has exactly one theorem
(plus, where needed, a witness or counterexample). -/

lemma createPreliminary_error (now : DateTime) (t d : Str) (di : Option DateInfo)
    (li : Option LocInfo) (u : Str) :
    _create_preliminary_event now t d di li u = .error () := rfl

lemma process_event_eq_none (year : Int) (today : Date) (now : DateTime)
    (ai : Option AIInfo) (raw : RawEvent) :
    process_event year today now ai raw = none := by
  unfold process_event
  by_cases h : is_likely_popup_store raw.title raw.description
  · simp [h, createPreliminary_error]
  · simp [h]

/-- Claim C1: every raw record that passes the popup-keyword relevance
filter still produces an absent result: `_create_preliminary_event` calls
the `Event` dataclass with the undeclared keyword arguments `description`
and `source_url`, so construction raises `TypeError`, which the top-level
handler of `process_event` converts to `None`; no input yields a
candidate. -/
theorem popup_filter_pass_still_absent (year : Int) (today : Date)
    (now : DateTime) (ai : Option AIInfo) (raw : RawEvent)
    (_hfilter : is_likely_popup_store raw.title raw.description = true) :
    _create_preliminary_event now raw.title raw.description
        (extract_dates year today raw.description <|>
          extract_dates year today raw.title)
        (extract_location raw.description <|> extract_location raw.title)
        raw.link = .error () ∧
      process_event year today now ai raw = none := by
  exact ⟨createPreliminary_error _ _ _ _ _ _, process_event_eq_none year today now ai raw⟩

/-- Witness for C1 at a concrete record that passes the keyword filter. -/
theorem popup_filter_pass_still_absent_witness :
    is_likely_popup_store (ks "팝업") [] = true ∧
      process_event 2025 ⟨2025, 1, 1⟩ ⟨⟨2025, 1, 1⟩, 0, 0, 0⟩ none
        ⟨ks "팝업", [], []⟩ = none := by
  refine ⟨by decide, ?_⟩
  exact (popup_filter_pass_still_absent 2025 ⟨2025, 1, 1⟩ ⟨⟨2025, 1, 1⟩, 0, 0, 0⟩
    none ⟨ks "팝업", [], []⟩ (by decide)).2

/-- Claim C2: every candidate returned (non-absent) by `process_event`
satisfies the validity invariant — title non-empty, period present with a
start date, `location.place` non-empty.  This holds (vacuously) because
`process_event` never returns a candidate at all; see C1. -/
theorem returned_candidates_satisfy_invariant (year : Int) (today : Date)
    (now : DateTime) (ai : Option AIInfo) (raw : RawEvent) :
    (process_event year today now ai raw).all validCandidate = true := by
  rw [process_event_eq_none]
  rfl

/-- Claim C3: on the text `"2월 한달간"` the extractor returns nothing at
all — the `'month' in pattern` dispatch tests for the literal text `month`
inside the regex source, which never occurs, so the full-calendar-month arm
is unreachable and the swallowed `IndexError` skips the match — against the
spec's promised February range at confidence 0.7. -/
theorem month_long_february_returns_none (year : Int) (today : Date) :
    extract_dates year today (ks "2월 한달간") = none := rfl

/-- Counterexample to claim C4 as stated: on `"성수동 무신사"` the
brand-store step lowers the confidence established by the venue step
(0.7 to 0.6), so confidence is not monotone across the three steps. -/
theorem brand_step_lowers_confidence :
    (locAfterBrand (ks "성수동 무신사")).confidence <
      (locAfterVenue (ks "성수동 무신사")).confidence := by
  have h1 : (locAfterVenue (ks "성수동 무신사")).confidence = 0.7 := rfl
  have h2 : (locAfterBrand (ks "성수동 무신사")).confidence = 0.6 := rfl
  rw [h1, h2]
  norm_num

/-- Claim C4 (amended): the address-pattern step never lowers the
confidence (it takes the max of the current value and 0.9), but the
brand-store step overwrites confidence with its own signal's value by plain
assignment, which can lower a venue-established 0.7 to 0.6. -/
theorem address_step_monotone_brand_step_assigns :
    (∀ (t : Str) (r : LocInfo), r.confidence ≤ (addressStep t r).confidence) ∧
      (locAfterVenue (ks "성수동 무신사")).confidence = 0.7 ∧
      (locAfterBrand (ks "성수동 무신사")).confidence = 0.6 := by
  refine ⟨fun t r => ?_, rfl, rfl⟩
  unfold addressStep
  cases h : addrSearch t
  · simp
  · simp [le_max_left]

/-- Claim C8: the period-overlap test agrees with the spec's
characterization (`A.start ≤ R.end_or_start` and `R.start ≤ A.end_or_start`,
missing end treated as that period's start, missing start means no
overlap), and on the boundary examples the shared day `2024-03-10` counts
as overlap while `03-09`/`03-10` do not. -/
theorem periods_overlap_matches_spec :
    (∀ p1 p2 : EventPeriod, _periods_overlap p1 p2 = overlapSpec p1 p2) ∧
      _periods_overlap ⟨some ⟨2024, 3, 1⟩, some ⟨2024, 3, 10⟩⟩
        ⟨some ⟨2024, 3, 10⟩, some ⟨2024, 3, 20⟩⟩ = true ∧
      _periods_overlap ⟨some ⟨2024, 3, 1⟩, some ⟨2024, 3, 9⟩⟩
        ⟨some ⟨2024, 3, 10⟩, some ⟨2024, 3, 20⟩⟩ = false := by
  refine ⟨fun p1 p2 => ?_, by decide, by decide⟩
  obtain ⟨s1, e1⟩ := p1
  obtain ⟨s2, e2⟩ := p2
  cases s1 <;> cases s2 <;> cases e1 <;> cases e2 <;> rfl

/-- Claim C6: the enrichment parser takes the substring from the first
brace to the last brace, parses it as JSON, returns absent whenever any of
`title`, `start_date`, `location` is missing — even when the JSON parses —
and coerces a present `confidence` to a float, defaulting to 0.5 on
coercion failure; on the sample response (prose around a block missing
`location`) the result is absent although the block parses. -/
theorem parse_response_matches_spec :
    (∀ text : Str, _parse_json_response text = parseResponseSpec text) ∧
      _parse_json_response sampleResponse = none ∧
      ((extractBlock sampleResponse).bind jsonLoads).isSome = true := by
  refine ⟨fun text => ?_, rfl, rfl⟩
  unfold _parse_json_response parseResponseSpec extractBlock pyFind pyRFind
  cases h1 : firstIdxAux '{' text 0 with
  | none => simp
  | some i =>
    cases h2 : lastIdxAux '}' text 0 none with
    | none =>
      have hc : ¬ ((i : Int) ≥ 0 ∧ (-1 : Int) + 1 > (i : Int)) := by omega
      dsimp only
      rw [if_neg hc]
    | some j =>
      dsimp only
      by_cases hij : i ≤ j
      · have hcond : ((i : Int) ≥ 0 ∧ (j : Int) + 1 > (i : Int)) := by
          constructor <;> omega
        rw [if_pos hcond, if_pos hij]
        have htn1 : ((j : Int) + 1).toNat = j + 1 := by omega
        have htn2 : ((i : Int)).toNat = i := by omega
        rw [htn1, htn2]
        dsimp only
        cases hjl : jsonLoads (List.drop i (List.take (j + 1) text)) with
        | none => rfl
        | some v =>
          cases v with
          | obj kvs =>
            have hall : (requiredFields.all fun f => dictHasKey kvs f) =
                (dictHasKey kvs (ks "title") && dictHasKey kvs (ks "start_date") &&
                  dictHasKey kvs (ks "location")) := by
              simp [requiredFields, Bool.and_assoc]
            dsimp only
            rw [hall]
            cases hX : (dictHasKey kvs (ks "title") && dictHasKey kvs (ks "start_date") &&
                dictHasKey kvs (ks "location")) <;> simp [hX]
          | null => rfl
          | bool b => rfl
          | num q => rfl
          | str s => rfl
          | arr xs => rfl
      · have hcond : ¬ ((i : Int) ≥ 0 ∧ (j : Int) + 1 > (i : Int)) := by omega
        rw [if_neg hcond, if_neg hij]

lemma scanWith_succ {γ β : Type} (pat : Str → Option (γ × Str))
    (handle : γ → Option β) (f : Nat) (s : Str) :
    scanWith pat handle (f + 1) s =
      match pat s with
      | some (g, rest) =>
        match handle g with
        | some b => some b
        | none => scanWith pat handle f rest
      | none =>
        match s with
        | [] => none
        | _ :: t => scanWith pat handle f t := rfl

lemma scanWith_of_firstMatch {γ β : Type} (pat : Str → Option (γ × Str))
    (handle : γ → Option β) :
    ∀ (fuel : Nat) (s : Str) (g : γ) (b : β),
      scanWith pat some fuel s = some g → handle g = some b →
      scanWith pat handle fuel s = some b := by
  intro fuel
  induction fuel with
  | zero =>
    intro s g b h _
    simp [scanWith] at h
  | succ f ih =>
    intro s g b h hb
    rw [scanWith_succ] at h ⊢
    cases hp : pat s with
    | some pr =>
      obtain ⟨g', rest⟩ := pr
      rw [hp] at h
      dsimp only at h
      cases h
      simp [hb]
    | none =>
      rw [hp] at h
      dsimp only at h ⊢
      cases s with
      | nil => simp at h
      | cons c t =>
        dsimp only at h ⊢
        exact ih t g b h hb

lemma scanWith_of_noMatch {γ β : Type} (pat : Str → Option (γ × Str))
    (handle : γ → Option β) :
    ∀ (fuel : Nat) (s : Str),
      scanWith pat some fuel s = none → scanWith pat handle fuel s = none := by
  intro fuel
  induction fuel with
  | zero => intro s _; rfl
  | succ f ih =>
    intro s h
    rw [scanWith_succ] at h ⊢
    cases hp : pat s with
    | some pr =>
      obtain ⟨g', rest⟩ := pr
      rw [hp] at h
      simp at h
    | none =>
      rw [hp] at h
      dsimp only at h ⊢
      cases s with
      | nil => rfl
      | cons c t =>
        dsimp only at h ⊢
        exact ih t h

lemma findIter_of_firstMatch {γ β : Type} (pat : Str → Option (γ × Str))
    (handle : γ → Option β) (s : Str) (g : γ) (b : β)
    (h : firstMatch pat s = some g) (hb : handle g = some b) :
    findIter pat handle s = some b :=
  scanWith_of_firstMatch pat handle (s.length + 1) s g b h hb

lemma findIter_of_noMatch {γ β : Type} (pat : Str → Option (γ × Str))
    (handle : γ → Option β) (s : Str) (h : firstMatch pat s = none) :
    findIter pat handle s = none :=
  scanWith_of_noMatch pat handle (s.length + 1) s h

lemma mkDatetime_some (y : Int) (m d : Nat) (h1 : 1 ≤ y) (h2 : y ≤ 9999)
    (h3 : 1 ≤ m) (h4 : m ≤ 12) (h5 : 1 ≤ d) (h6 : d ≤ daysInMonth y m) :
    mkDatetime y m d = some ⟨y, m, d⟩ := by
  have hv : (Date.mk y m d).valid = true := by
    simp [Date.valid, Bool.and_eq_true, decide_eq_true_eq]
    exact ⟨⟨⟨⟨⟨h1, h2⟩, h3⟩, h4⟩, h5⟩, h6⟩
  simp [mkDatetime, hv]

lemma ordinal_sub_same_month (y : Int) (m : Nat) (hm : 2 < m) (d1 d2 : Nat) :
    (Date.mk y m d1).ordinal - (Date.mk y m d2).ordinal = (d1 : Int) - d2 := by
  unfold Date.ordinal
  have h2 : ¬ ((Date.mk y m d1).month ≤ 2) := by simp; omega
  dsimp only
  rw [if_neg (by omega : ¬ (m ≤ 2))]
  ring

lemma daysInMonth_three (y : Int) : daysInMonth y 3 = 31 := rfl

lemma daysInMonth_five (y : Int) : daysInMonth y 5 = 31 := rfl

lemma addDays_succ (n : Nat) (d : Date) :
    addDays (n + 1) d = addDays n (succDay d) := rfl

lemma succDay_may (y : Int) (d : Nat) (h : d < 31) :
    succDay ⟨y, 5, d⟩ = ⟨y, 5, d + 1⟩ := by
  simp [succDay, daysInMonth_five, h]

lemma addDays7_may20 (y : Int) : addDays 7 ⟨y, 5, 20⟩ = ⟨y, 5, 27⟩ := by
  rw [addDays_succ, succDay_may y 20 (by norm_num),
    addDays_succ, succDay_may y 21 (by norm_num),
    addDays_succ, succDay_may y 22 (by norm_num),
    addDays_succ, succDay_may y 23 (by norm_num),
    addDays_succ, succDay_may y 24 (by norm_num),
    addDays_succ, succDay_may y 25 (by norm_num),
    addDays_succ, succDay_may y 26 (by norm_num)]
  norm_num [addDays]

/-- Counterexample to claim C9 as stated: a text that contains
`"3월 5일부터 3월 10일까지"` but also an earlier explicit range; the
extractor returns the earlier January range, not the March one. -/
theorem earlier_explicit_range_wins :
    strHas (ks "3월 5일부터 3월 10일까지")
        (ks "1월 2일부터 1월 3일까지 그리고 3월 5일부터 3월 10일까지") = true ∧
      extract_dates 2025 ⟨2025, 6, 1⟩
          (ks "1월 2일부터 1월 3일까지 그리고 3월 5일부터 3월 10일까지") =
        some ⟨ks "2025-01-02", ks "2025-01-03", ks "explicit", 0.9⟩ ∧
      (extract_dates 2025 ⟨2025, 6, 1⟩
          (ks "1월 2일부터 1월 3일까지 그리고 3월 5일부터 3월 10일까지")).map
        DateInfo.startDate ≠ some (ks "2025-03-05") := by
  have he : extract_dates 2025 ⟨2025, 6, 1⟩
      (ks "1월 2일부터 1월 3일까지 그리고 3월 5일부터 3월 10일까지") =
      some ⟨ks "2025-01-02", ks "2025-01-03", ks "explicit", 0.9⟩ := rfl
  refine ⟨rfl, he, ?_⟩
  rw [he]
  decide

/-- Claim C9 (amended): for every text whose first match of the explicit
Korean range regex is `"3월 5일부터 3월 10일까지"` (groups 3,5,3,10), and a
`datetime`-representable current year, the extractor returns the explicit
March 5 – March 10 range of the current year at confidence 0.9; the
explicit-range pattern takes priority over every later pattern. -/
theorem explicit_range_first_match (year : Int) (today : Date) (text : Str)
    (hy1 : 1 ≤ year) (hy2 : year ≤ 9999)
    (hfm : firstMatch pRangeKorean text = some (3, 5, 3, 10)) :
    extract_dates year today text =
      some ⟨formatDate ⟨year, 3, 5⟩, formatDate ⟨year, 3, 10⟩,
        ks "explicit", 0.9⟩ := by
  have hlt : dLt ⟨year, 3, 10⟩ ⟨year, 3, 5⟩ = false := by
    have hd := ordinal_sub_same_month year 3 (by norm_num) 10 5
    simp only [dLt, decide_eq_false_iff_not, not_lt]
    omega
  have hh : explicitHandler year (3, 5, 3, 10) =
      some ⟨formatDate ⟨year, 3, 5⟩, formatDate ⟨year, 3, 10⟩,
        ks "explicit", 0.9⟩ := by
    unfold explicitHandler
    dsimp only
    rw [mkDatetime_some year 3 5 hy1 hy2 (by norm_num) (by norm_num)
      (by norm_num) (by simp [daysInMonth_three]),
      mkDatetime_some year 3 10 hy1 hy2 (by norm_num) (by norm_num)
      (by norm_num) (by simp [daysInMonth_three])]
    simp [hlt, ks]
  have hfind := findIter_of_firstMatch pRangeKorean (explicitHandler year)
    text _ _ hfm hh
  unfold extract_dates
  rw [hfind]
  rfl

/-- Witness for C9 (amended) at the bare phrase itself. -/
theorem explicit_range_first_match_witness :
    (firstMatch pRangeKorean (ks "3월 5일부터 3월 10일까지") = some (3, 5, 3, 10) ∧
        (1 : Int) ≤ 2025 ∧ (2025 : Int) ≤ 9999) ∧
      extract_dates 2025 ⟨2025, 1, 1⟩ (ks "3월 5일부터 3월 10일까지") =
        some ⟨formatDate ⟨2025, 3, 5⟩, formatDate ⟨2025, 3, 10⟩,
          ks "explicit", 0.9⟩ := by
  refine ⟨⟨by decide, by norm_num, by norm_num⟩, ?_⟩
  exact explicit_range_first_match 2025 ⟨2025, 1, 1⟩ _ (by norm_num)
    (by norm_num) (by decide)


lemma optBind_some {α β : Type} (a : α) (f : α → Option β) :
    (bind (some a) f : Option β) = f a := rfl

/-- Claim C10: for every text whose only date mention is a bare `5/20`
(no match of any earlier pattern, first slash match `(5, 20)`), when today
is more than three days past May 20 of the current year, the extractor
rolls the start date into the next year, synthesizes the end date seven
days later, and reports confidence 0.6. -/
theorem bare_slash_past_date_next_year (year : Int) (today : Date) (text : Str)
    (hy1 : 1 ≤ year) (hy2 : year ≤ 9998)
    (h1 : firstMatch pRangeKorean text = none)
    (h2 : firstMatch pRangeSlash text = none)
    (h3 : firstMatch pMonthLong text = none)
    (h4 : firstMatch pTildeEnd text = none)
    (h5 : firstMatch pSingleYearKorean text = none)
    (h6 : firstMatch pSingleYearDash text = none)
    (h7 : firstMatch pSingleKorean text = none)
    (h8 : firstMatch pSingleSlash text = some (5, 20))
    (hpast : (Date.mk year 5 20).ordinal + 3 < today.ordinal) :
    extract_dates year today text =
      some ⟨formatDate ⟨year + 1, 5, 20⟩,
        formatDate (addDays 7 ⟨year + 1, 5, 20⟩), ks "single", 0.6⟩ := by
  have hcond : (Date.mk year 5 20).ordinal < today.ordinal - 3 := by omega
  have mk1 : mkDatetime year 5 20 = some ⟨year, 5, 20⟩ :=
    mkDatetime_some year 5 20 hy1 (by omega) (by norm_num) (by norm_num)
      (by norm_num) (by simp [daysInMonth_five])
  have mk2 : mkDatetime (year + 1) 5 20 = some ⟨year + 1, 5, 20⟩ :=
    mkDatetime_some (year + 1) 5 20 (by omega) (by omega) (by norm_num)
      (by norm_num) (by norm_num) (by simp [daysInMonth_five])
  have hadd : addDays 7 (Date.mk (year + 1) 5 20) = ⟨year + 1, 5, 27⟩ :=
    addDays7_may20 (year + 1)
  have hval : (Date.mk (year + 1) 5 27).valid = true := by
    simp only [Date.valid, daysInMonth_five, Bool.and_eq_true, decide_eq_true_eq]
    refine ⟨⟨⟨⟨⟨by omega, by omega⟩, by norm_num⟩, by norm_num⟩, by norm_num⟩,
      by norm_num⟩
  have hh : singleHandler year today (5, 20) =
      some ⟨formatDate ⟨year + 1, 5, 20⟩,
        formatDate (addDays 7 ⟨year + 1, 5, 20⟩), ks "single", 0.6⟩ := by
    simp only [singleHandler, mk1, mk2, optBind_some, hadd, hval, ks,
      eq_true hcond, if_true]
  have hfind := findIter_of_firstMatch pSingleSlash (singleHandler year today)
    text _ _ h8 hh
  unfold extract_dates
  rw [findIter_of_noMatch _ _ _ h1, findIter_of_noMatch _ _ _ h2,
    findIter_of_noMatch _ _ _ h3, findIter_of_noMatch _ _ _ h4,
    findIter_of_noMatch _ _ _ h5, findIter_of_noMatch _ _ _ h6,
    findIter_of_noMatch _ _ _ h7, hfind]
  rfl

/-- Witness for C10 at the bare text `"5/20"` with today 2025-06-01. -/
theorem bare_slash_past_date_next_year_witness :
    (firstMatch pSingleSlash (ks "5/20") = some (5, 20) ∧
        (Date.mk 2025 5 20).ordinal + 3 < (Date.mk 2025 6 1).ordinal) ∧
      extract_dates 2025 ⟨2025, 6, 1⟩ (ks "5/20") =
        some ⟨formatDate ⟨2026, 5, 20⟩, formatDate (addDays 7 ⟨2026, 5, 20⟩),
          ks "single", 0.6⟩ := by
  refine ⟨⟨by decide, by decide⟩, ?_⟩
  have h := bare_slash_past_date_next_year 2025 ⟨2025, 6, 1⟩ (ks "5/20")
    (by norm_num) (by norm_num) (by decide) (by decide) (by decide) (by decide)
    (by decide) (by decide) (by decide) (by decide) (by decide)
  norm_num at h ⊢
  exact h


lemma exBind_ok {ε α β : Type} (a : α) (f : α → Except ε β) :
    (bind (Except.ok a) f : Except ε β) = f a := rfl

lemma runLen_self : ∀ s : Str, runLen s s = s.length
  | [] => rfl
  | c :: cs => by simp [runLen, runLen_self cs]

lemma runLen_le_left : ∀ a b : Str, runLen a b ≤ a.length := by
  intro a
  induction a with
  | nil => intro b; cases b <;> simp [runLen]
  | cons x xs ih =>
    intro b
    cases b with
    | nil => simp [runLen]
    | cons y ys =>
      simp only [runLen]
      split
      · exact Nat.succ_le_succ (ih ys)
      · simp

lemma foldl_lmStep_stay (a b : Str) (best : Nat × Nat × Nat)
    (hbest : a.length ≤ best.2.2) :
    ∀ L : List (Nat × Nat), L.foldl (lmStep a b) best = best := by
  intro L
  induction L with
  | nil => rfl
  | cons p ps ih =>
    rw [List.foldl_cons]
    have hstep : lmStep a b best p = best := by
      unfold lmStep
      have hle : runLen (a.drop p.1) (b.drop p.2) ≤ a.length :=
        le_trans (runLen_le_left _ _) (by simp)
      rw [if_neg (by omega)]
    rw [hstep]
    exact ih

lemma allPairs_cons (n m : Nat) :
    ∃ L, allPairs (n + 1) (m + 1) = (0, 0) :: L := by
  unfold allPairs
  rw [List.range_succ_eq_map, List.flatMap_cons, List.range_succ_eq_map,
    List.map_cons, List.cons_append]
  exact ⟨_, rfl⟩

lemma findLongestMatch_self : ∀ s : Str, findLongestMatch s s = (0, 0, s.length) := by
  intro s
  cases s with
  | nil => rfl
  | cons c cs =>
    obtain ⟨L, hL⟩ := allPairs_cons cs.length cs.length
    unfold findLongestMatch
    have hlen : (c :: cs).length = cs.length + 1 := rfl
    rw [hlen, hL, List.foldl_cons]
    have h0 : lmStep (c :: cs) (c :: cs) (0, 0, 0) (0, 0) =
        (0, 0, (c :: cs).length) := by
      unfold lmStep
      simp [runLen_self]
    rw [h0]
    exact foldl_lmStep_stay _ _ _ (le_refl _) L

lemma matchingCharsGo_succ (f : Nat) (a b : Str) :
    matchingCharsGo (f + 1) a b =
      (let (i, j, k) := findLongestMatch a b
       if k = 0 then 0
       else matchingCharsGo f (a.take i) (b.take j) + k +
         matchingCharsGo f (a.drop (i + k)) (b.drop (j + k))) := rfl

lemma matchingCharsGo_nil (f : Nat) : matchingCharsGo f [] [] = 0 := by
  cases f with
  | zero => rfl
  | succ f => rfl

lemma matchingChars_self (s : Str) : matchingChars s s = s.length := by
  unfold matchingChars
  rw [matchingCharsGo_succ, findLongestMatch_self]
  cases s with
  | nil => rfl
  | cons c cs =>
    dsimp only
    rw [if_neg (by simp)]
    rw [show (0 : Nat) + (c :: cs).length = (c :: cs).length by omega]
    rw [List.take_zero, List.drop_length, matchingCharsGo_nil]
    omega

lemma smRatio_self (s : Str) : smRatio s s = 1 := by
  unfold smRatio
  split
  · rfl
  · rename_i h
    rw [matchingChars_self]
    have hn : (s.length : ℚ) ≠ 0 := by
      simp only [ne_eq, Nat.cast_eq_zero]
      omega
    field_simp
    ring

lemma calc_similarity_eq_one (s1 s2 : Str) (h1 : s1 ≠ []) (h2 : s2 ≠ [])
    (h : stripPunct (lowerStr s1) = stripPunct (lowerStr s2)) :
    _calculate_similarity s1 s2 = 1 := by
  unfold _calculate_similarity
  have he : (s1.isEmpty || s2.isEmpty) = false := by
    simp [List.isEmpty_iff, h1, h2]
  rw [he]
  simp only [Bool.false_eq_true, if_false]
  rw [h, smRatio_self]

lemma are_similar_of_titles (e1 e2 : Event) (h1 : e1.title ≠ [])
    (h2 : e2.title ≠ [])
    (ht : stripPunct (lowerStr e1.title) = stripPunct (lowerStr e2.title)) :
    _are_events_similar e1 e2 = .ok true := by
  unfold _are_events_similar
  have hcalc := calc_similarity_eq_one e1.title e2.title h1 h2 ht
  rw [hcalc]
  have hgt : (1 : ℚ) > similarity_threshold := by
    norm_num [similarity_threshold]
  rw [if_pos hgt]
  rfl

lemma locStep_some_of_some (b : EventLocation) (e : Event) (l : EventLocation)
    (hl : e.location = some l) :
    ∃ b', locStep (some b) e = .ok (some b') := by
  unfold locStep
  rw [hl]
  dsimp only
  split
  · split <;> exact ⟨_, rfl⟩
  · exact ⟨b, rfl⟩

lemma merge_pair_urls (e1 e2 : Event) (l1 l2 : EventLocation)
    (hl1 : e1.location = some l1) (hl2 : e2.location = some l2) :
    ∃ m, _merge_event_group [e1, e2] = some m ∧
      m.source_urls = pyUrlUnion [e1, e2] := by
  have hbase : ∃ bl, (pyMaxByConf e1 [e2]).location = some bl := by
    unfold pyMaxByConf
    rw [List.foldl_cons, List.foldl_nil]
    split
    · exact ⟨l2, hl2⟩
    · exact ⟨l1, hl1⟩
  obtain ⟨bl, hbl⟩ := hbase
  have hfold : ∃ loc', List.foldlM locStep (pyMaxByConf e1 [e2]).location
      [e1, e2] = .ok (some loc') := by
    rw [hbl]
    obtain ⟨b1, hb1⟩ := locStep_some_of_some bl e1 l1 hl1
    rw [List.foldlM_cons, hb1, exBind_ok]
    obtain ⟨b2, hb2⟩ := locStep_some_of_some b1 e2 l2 hl2
    rw [List.foldlM_cons, hb2, exBind_ok, List.foldlM_nil]
    exact ⟨b2, rfl⟩
  obtain ⟨loc', hloc⟩ := hfold
  unfold _merge_event_group
  dsimp only
  rw [hloc]
  exact ⟨_, rfl, rfl⟩

lemma group_pair (e1 e2 : Event)
    (hsim : _are_events_similar e1 e2 = .ok true) :
    _group_similar_events [e1, e2] = .ok [[e1, e2]] := by
  have hsplit : splitSimilar e1 [e2] = .ok ([e2], []) := by
    unfold splitSimilar
    rw [hsim, exBind_ok]
    unfold splitSimilar
    rfl
  unfold _group_similar_events
  show groupLoop 2 [e1, e2] = .ok [[e1, e2]]
  unfold groupLoop
  rw [hsplit, exBind_ok]
  rfl

lemma mem_insertUrl (l : List Str) (u x : Str) :
    (x ∈ (if l.contains u then l else l ++ [u])) ↔ x ∈ l ∨ x = u := by
  split
  · rename_i h
    have hu : u ∈ l := List.elem_iff.mp h
    constructor
    · exact Or.inl
    · rintro (hx | rfl)
      · exact hx
      · exact hu
  · simp [List.mem_append]

lemma mem_foldIns (us : List Str) :
    ∀ (acc : List Str) (x : Str),
      x ∈ us.foldl (fun a u => if a.contains u then a else a ++ [u]) acc ↔
        x ∈ acc ∨ x ∈ us := by
  induction us with
  | nil => intro acc x; simp
  | cons u us ih =>
    intro acc x
    rw [List.foldl_cons, ih]
    rw [mem_insertUrl]
    constructor
    · rintro ((hx | rfl) | hx)
      · exact Or.inl hx
      · exact Or.inr (List.mem_cons_self _ _)
      · exact Or.inr (List.mem_cons_of_mem _ hx)
    · rintro (hx | hx)
      · exact Or.inl (Or.inl hx)
      · rcases List.mem_cons.mp hx with rfl | hx'
        · exact Or.inl (Or.inr rfl)
        · exact Or.inr hx'

lemma mem_pyUrlUnion_pair (e1 e2 : Event) (x : Str) :
    x ∈ pyUrlUnion [e1, e2] ↔ x ∈ e1.source_urls ∨ x ∈ e2.source_urls := by
  unfold pyUrlUnion
  rw [List.foldl_cons, List.foldl_cons, List.foldl_nil]
  rw [mem_foldIns, mem_foldIns]
  simp

/-- Claim C7: two candidates whose titles are identical after
normalization (case-folding and punctuation/whitespace stripping) — and no
other distinguishing information beyond well-formed fields (locations
present; normalized title under 200 characters, below difflib's autojunk
activation, which the ratio model does not cover) — integrate into exactly
one merged candidate whose `source_urls` is the union of both inputs'. -/
theorem dedup_identical_titles_union (e1 e2 : Event)
    (h1 : e1.title ≠ []) (h2 : e2.title ≠ [])
    (ht : stripPunct (lowerStr e1.title) = stripPunct (lowerStr e2.title))
    (_hjunk : (stripPunct (lowerStr e1.title)).length < 200)
    (hl1 : e1.location.isSome = true) (hl2 : e2.location.isSome = true) :
    ∃ m, integrate_events [e1, e2] = [m] ∧
      ∀ u : Str, u ∈ m.source_urls ↔
        u ∈ e1.source_urls ∨ u ∈ e2.source_urls := by
  obtain ⟨l1, hl1'⟩ := Option.isSome_iff_exists.mp hl1
  obtain ⟨l2, hl2'⟩ := Option.isSome_iff_exists.mp hl2
  have hsim := are_similar_of_titles e1 e2 h1 h2 ht
  obtain ⟨m, hm, hurls⟩ := merge_pair_urls e1 e2 l1 l2 hl1' hl2'
  refine ⟨m, ?_, ?_⟩
  · unfold integrate_events
    rw [group_pair e1 e2 hsim]
    simp only [List.isEmpty, List.map_cons, List.map_nil, hm]
    rfl
  · intro u
    rw [hurls, mem_pyUrlUnion_pair]


/-- Witness for C7 at two concrete candidates with normalization-equal
titles. -/
theorem dedup_identical_titles_union_witness :
    (wEvent1.title ≠ [] ∧ wEvent2.title ≠ [] ∧
        stripPunct (lowerStr wEvent1.title) = stripPunct (lowerStr wEvent2.title) ∧
        (stripPunct (lowerStr wEvent1.title)).length < 200 ∧
        wEvent1.location.isSome = true ∧ wEvent2.location.isSome = true) ∧
      ∃ m, integrate_events [wEvent1, wEvent2] = [m] ∧
        ∀ u : Str, u ∈ m.source_urls ↔
          u ∈ wEvent1.source_urls ∨ u ∈ wEvent2.source_urls := by
  refine ⟨⟨by decide, by decide, by decide, by decide, by decide, by decide⟩, ?_⟩
  exact dedup_identical_titles_union wEvent1 wEvent2 (by decide) (by decide)
    (by decide) (by decide) (by decide) (by decide)

lemma natDigitsAux_irrel : ∀ (f1 : Nat), ∀ f2 n, n < f1 → n < f2 →
    natDigitsAux f1 n = natDigitsAux f2 n := by
  intro f1
  induction f1 with
  | zero => intro f2 n h1 _; omega
  | succ f ih =>
    intro f2 n h1 h2
    cases f2 with
    | zero => omega
    | succ f2' =>
      show natDigitsAux (f + 1) n = natDigitsAux (f2' + 1) n
      unfold natDigitsAux
      split
      · rfl
      · rename_i hn
        have hrec : natDigitsAux f (n / 10) = natDigitsAux f2' (n / 10) := by
          have hlt : n / 10 < n := Nat.div_lt_self (by omega) (by omega)
          exact ih f2' (n / 10) (by omega) (by omega)
        rw [hrec]

lemma natDigits_small (n : Nat) (h : n < 10) : natDigits n = [digitChar n] := by
  unfold natDigits natDigitsAux
  rw [if_pos h]

lemma natDigits_step (n : Nat) (h : 10 ≤ n) :
    natDigits n = natDigits (n / 10) ++ [digitChar (n % 10)] := by
  unfold natDigits
  conv_lhs => rw [show n + 1 = n + 1 from rfl]
  show natDigitsAux (n + 1) n = natDigitsAux (n / 10 + 1) (n / 10) ++ [digitChar (n % 10)]
  unfold natDigitsAux
  rw [if_neg (by omega)]
  congr 1
  exact natDigitsAux_irrel n (n / 10 + 1) (n / 10)
    (by exact Nat.div_lt_self (by omega) (by omega)) (by omega)

lemma natDigits4 (y : Nat) (h1 : 1000 ≤ y) (h2 : y ≤ 9999) :
    natDigits y = [digitChar (y / 1000), digitChar (y / 100 % 10),
      digitChar (y / 10 % 10), digitChar (y % 10)] := by
  rw [natDigits_step y (by omega), natDigits_step (y / 10) (by omega),
    natDigits_step (y / 10 / 10) (by omega),
    natDigits_small (y / 10 / 10 / 10) (by omega)]
  have e1 : y / 10 / 10 = y / 100 := by omega
  have e2 : y / 10 / 10 / 10 = y / 1000 := by omega
  have e3 : y / 10 % 10 = y / 10 % 10 := rfl
  rw [e1] at *
  rw [e2]
  simp [e1]

lemma isDig_digitChar (k : Nat) (h : k < 10) : isDig (digitChar k) = true := by
  interval_cases k <;> decide

lemma digVal_digitChar (k : Nat) (h : k < 10) : digVal (digitChar k) = k := by
  interval_cases k <;> decide

lemma d4_digits {α : Type} (y : Nat) (h1 : 1000 ≤ y) (h2 : y ≤ 9999)
    (k : Nat → Str → Option α) (rest : Str) :
    d4 k (natDigits y ++ rest) = k y rest := by
  rw [natDigits4 y h1 h2]
  show d4 k (digitChar (y / 1000) :: digitChar (y / 100 % 10) ::
    digitChar (y / 10 % 10) :: digitChar (y % 10) :: rest) = k y rest
  unfold d4
  dsimp only
  rw [isDig_digitChar _ (by omega), isDig_digitChar _ (by omega),
    isDig_digitChar _ (by omega), isDig_digitChar _ (by omega)]
  simp only [Bool.and_self, if_true]
  rw [digVal_digitChar _ (by omega), digVal_digitChar _ (by omega),
    digVal_digitChar _ (by omega), digVal_digitChar _ (by omega)]
  congr 1
  omega

lemma digitChar_zero : digitChar 0 = '0' := rfl

lemma pad2_digits (n : Nat) (h : n ≤ 99) :
    pad2 n = [digitChar (n / 10), digitChar (n % 10)] := by
  unfold pad2
  split
  · rename_i hlt
    have e1 : n / 10 = 0 := by omega
    have e2 : n % 10 = n := by omega
    rw [e1, e2, digitChar_zero]
  · rename_i hge
    rw [natDigits_step n (by omega), natDigits_small (n / 10) (by omega)]
    rfl

lemma d12_pad2 {α : Type} (n : Nat) (h : n ≤ 99) (k : Nat → Str → Option α)
    (rest : Str) (hk : (k n rest).isSome = true) :
    d12 k (pad2 n ++ rest) = k n rest := by
  rw [pad2_digits n h]
  show d12 k (digitChar (n / 10) :: digitChar (n % 10) :: rest) = k n rest
  unfold d12
  dsimp only
  rw [isDig_digitChar _ (by omega)]
  simp only [if_true]
  rw [isDig_digitChar _ (by omega)]
  simp only [if_true]
  rw [digVal_digitChar _ (by omega), digVal_digitChar _ (by omega)]
  have e : n / 10 * 10 + n % 10 = n := by omega
  rw [e]
  obtain ⟨v, hv⟩ := Option.isSome_iff_exists.mp hk
  rw [hv]
  rfl

lemma chP_cons {α : Type} (c : Char) (k : Str → Option α) (rest : Str) :
    chP c k (c :: rest) = k rest := by
  unfold chP
  simp

lemma daysInMonth_le31 (y : Int) (m : Nat) : daysInMonth y m ≤ 31 := by
  unfold daysInMonth
  split
  · split <;> omega
  all_goals omega

lemma parseYMD_formatDate (dt : Date) (hv : dt.valid = true)
    (hy : 1000 ≤ dt.year) :
    parseYMD (formatDate dt) = some dt := by
  obtain ⟨y, m, dd⟩ := dt
  simp only [Date.valid, Bool.and_eq_true, decide_eq_true_eq] at hv
  obtain ⟨⟨⟨⟨⟨hy1, hy2⟩, hm1⟩, hm2⟩, hd1⟩, hd2⟩ := hv
  simp only at hy hd2
  have hdm : dd ≤ 31 := le_trans hd2 (daysInMonth_le31 y m)
  unfold parseYMD formatDate intDecimal
  dsimp only
  rw [if_neg (by omega : ¬ y < 0)]
  unfold pSingleYearDash
  rw [List.append_assoc, List.cons_append]
  rw [d4_digits y.natAbs (by omega) (by omega)]
  rw [chP_cons]
  rw [d12_pad2 m (by omega)]
  · rw [chP_cons]
    rw [← List.append_nil (pad2 dd), d12_pad2 dd (by omega)]
    · dsimp only
      have hcast : ((y.natAbs : Nat) : Int) = y := by omega
      rw [hcast]
      exact mkDatetime_some y m dd (by omega) (by omega) hm1 hm2 hd1 hd2
    · rfl
  · rw [chP_cons]
    rw [← List.append_nil (pad2 dd), d12_pad2 dd (by omega)]
    · rfl
    · rfl

lemma d12_pad2_or {α : Type} (n : Nat) (h : n ≤ 99) (k : Nat → Str → Option α)
    (rest : Str) :
    d12 k (pad2 n ++ rest) =
      (k n rest <|> k (n / 10) (digitChar (n % 10) :: rest)) := by
  rw [pad2_digits n h]
  show d12 k (digitChar (n / 10) :: digitChar (n % 10) :: rest) =
    (k n rest <|> k (n / 10) (digitChar (n % 10) :: rest))
  unfold d12
  dsimp only
  rw [isDig_digitChar _ (by omega)]
  simp only [if_true]
  rw [isDig_digitChar _ (by omega)]
  simp only [if_true]
  rw [digVal_digitChar _ (by omega), digVal_digitChar _ (by omega)]
  have e : n / 10 * 10 + n % 10 = n := by omega
  rw [e]

lemma parseDateTime_formatDateTime (t : DateTime) (hv : t.date.valid = true)
    (hy : 1000 ≤ t.date.year) (hh : t.hour ≤ 23) (hmi : t.minute ≤ 59)
    (hse : t.second ≤ 59) :
    parseDateTime (formatDateTime t) = some t := by
  obtain ⟨⟨y, m, dd⟩, h, mi, se⟩ := t
  simp only [Date.valid, Bool.and_eq_true, decide_eq_true_eq] at hv
  obtain ⟨⟨⟨⟨⟨hy1, hy2⟩, hm1⟩, hm2⟩, hd1⟩, hd2⟩ := hv
  simp only at hy hh hmi hse hd2
  have hdm : dd ≤ 31 := le_trans hd2 (daysInMonth_le31 y m)
  unfold parseDateTime formatDateTime formatDate intDecimal
  dsimp only
  rw [if_neg (by omega : ¬ y < 0)]
  unfold pDT
  simp only [List.append_assoc, List.cons_append]
  rw [d4_digits y.natAbs (by omega) (by omega)]
  rw [chP_cons]
  rw [d12_pad2_or m (by omega)]
  rw [chP_cons]
  rw [d12_pad2_or dd (by omega)]
  rw [chP_cons]
  rw [d12_pad2_or h (by omega)]
  rw [chP_cons]
  rw [d12_pad2_or mi (by omega)]
  rw [chP_cons]
  rw [← List.append_nil (pad2 se), d12_pad2_or se (by omega)]
  simp only [Option.some_orElse]
  have hcast : ((y.natAbs : Nat) : Int) = y := by omega
  rw [hcast]
  rw [mkDatetime_some y m dd (by omega) (by omega) hm1 hm2 hd1 hd2]
  have hb : (decide (h ≤ 23) && decide (mi ≤ 59) && decide (se ≤ 59)) = true := by
    simp [hh, hmi, hse]
  simp [hb]

lemma canonDateStr_spec (s : Str) (h : canonDateStr s = true) :
    ∃ d, parseYMD s = some d ∧ formatDate d = s ∧ s.isEmpty = false := by
  unfold canonDateStr at h
  cases hp : parseYMD s with
  | none => rw [hp] at h; simp at h
  | some d =>
    rw [hp] at h
    refine ⟨d, rfl, by simpa using h, ?_⟩
    cases s with
    | nil => exact Option.noConfusion hp
    | cons c cs => rfl

lemma canonDateTimeStr_spec (s : Str) (h : canonDateTimeStr s = true) :
    ∃ t, parseDateTime s = some t ∧ formatDateTime t = s ∧ s.isEmpty = false := by
  unfold canonDateTimeStr at h
  cases hp : parseDateTime s with
  | none => rw [hp] at h; simp at h
  | some t =>
    rw [hp] at h
    refine ⟨t, rfl, by simpa using h, ?_⟩
    cases s with
    | nil => exact Option.noConfusion hp
    | cons c cs => rfl

lemma roundtrip_record (now : DateTime) (r : EventRec)
    (hwf : wellFormedRec r = true) :
    ∃ e, Event.from_dict now r = .ok e ∧ e.to_dict = some r := by
  obtain ⟨tt, bb, ps, pe, pl, ad, co, tr, os, oe, din, dco, dvi, su, cf, ca⟩ := r
  unfold wellFormedRec at hwf
  simp only [Bool.and_eq_true] at hwf
  obtain ⟨⟨hps, hpe⟩, hca⟩ := hwf
  obtain ⟨t, hpt, hfmtca, hcane⟩ := canonDateTimeStr_spec _ hca
  unfold Event.from_dict Event.to_dict
  rw [hcane, hpt]
  simp only [Bool.false_eq_true, if_false, Option.getD_some]
  cases ps with
  | none =>
    cases pe with
    | none =>
      refine ⟨_, rfl, ?_⟩
      simp only [Option.map_none', hfmtca]
    | some s2 =>
      unfold canonOptDate at hpe
      dsimp only at hpe
      obtain ⟨d2, hp2, hf2, hn2⟩ := canonDateStr_spec s2 hpe
      dsimp only
      rw [hn2, hp2]
      simp only [Bool.false_eq_true, if_false]
      refine ⟨_, rfl, ?_⟩
      simp only [Option.map_none', Option.map_some', hfmtca, hf2]
  | some s1 =>
    unfold canonOptDate at hps
    dsimp only at hps
    obtain ⟨d1, hp1, hf1, hn1⟩ := canonDateStr_spec s1 hps
    dsimp only
    rw [hn1, hp1]
    simp only [Bool.false_eq_true, if_false]
    cases pe with
    | none =>
      refine ⟨_, rfl, ?_⟩
      simp only [Option.map_none', Option.map_some', hfmtca, hf1]
    | some s2 =>
      unfold canonOptDate at hpe
      dsimp only at hpe
      obtain ⟨d2, hp2, hf2, hn2⟩ := canonDateStr_spec s2 hpe
      dsimp only
      rw [hn2, hp2]
      simp only [Bool.false_eq_true, if_false]
      refine ⟨_, rfl, ?_⟩
      simp only [Option.map_some', hfmtca, hf1, hf2]

lemma formatDate_nonempty (d : Date) : (formatDate d).isEmpty = false := by
  cases hfd : formatDate d with
  | nil =>
    exfalso
    unfold formatDate at hfd
    simp [List.append_eq_nil] at hfd
  | cons a l => rfl

lemma formatDateTime_nonempty (t : DateTime) :
    (formatDateTime t).isEmpty = false := by
  cases hfd : formatDateTime t with
  | nil =>
    exfalso
    unfold formatDateTime at hfd
    simp [List.append_eq_nil] at hfd
  | cons a l => rfl

lemma roundtrip_event (now : DateTime) (c : Event)
    (hfp : fullyPopulated c = true) :
    ∃ rec, c.to_dict = some rec ∧
      ∃ e, Event.from_dict now rec = .ok e ∧ e.pyEq c = true := by
  obtain ⟨tt, bb, per, loc, oh, det, su, cf, ca, reas⟩ := c
  unfold fullyPopulated at hfp
  simp only [Bool.and_eq_true] at hfp
  obtain ⟨⟨⟨hper, hloc⟩, hcad⟩, hcat⟩ := hfp
  cases per with
  | none => simp at hper
  | some p =>
    obtain ⟨pstart, pend⟩ := p
    dsimp only at hper
    cases pstart with
    | none => simp at hper
    | some sd =>
      cases pend with
      | none => simp at hper
      | some ed =>
        simp only [Bool.and_eq_true] at hper
        obtain ⟨hsd, hed⟩ := hper
        unfold roundTripDate at hsd hed hcad
        simp only [Bool.and_eq_true, decide_eq_true_eq] at hsd hed hcad
        unfold validTime at hcat
        simp only [Bool.and_eq_true, decide_eq_true_eq] at hcat
        cases loc with
        | none => simp at hloc
        | some l =>
          unfold Event.to_dict
          dsimp only
          refine ⟨_, rfl, ?_⟩
          unfold Event.from_dict
          simp only [Option.map_some']
          rw [formatDate_nonempty sd, formatDate_nonempty ed,
            formatDateTime_nonempty ca]
          simp only [Bool.false_eq_true, if_false]
          rw [parseYMD_formatDate sd hsd.1 hsd.2,
            parseYMD_formatDate ed hed.1 hed.2]
          rw [parseDateTime_formatDateTime ca
            hcad.1 hcad.2 hcat.1.1 hcat.1.2 hcat.2]
          refine ⟨_, rfl, ?_⟩
          simp [Event.pyEq]


/-- Counterexample to claim C5 as stated: an unparseable period date string
does not degrade gracefully to null — `from_dict` raises `ValueError`
(modelled as `.error`). -/
theorem from_dict_raises_on_unparseable_date :
    Event.from_dict wNow wRecBad = .error () := rfl

/-- Claim C5 (amended): conversion round-trips in both directions —
`to_dict` after `from_dict` is the identity on well-formed records (period
dates null or canonical strings, canonical `collected_at`), and `from_dict`
after `to_dict` reproduces a fully populated candidate up to dataclass
equality (four-digit years, valid time of day) — but an unparseable period
date string makes `from_dict` raise rather than degrade to null; only an
unparseable `collected_at` degrades gracefully to the default. -/
theorem event_record_roundtrips :
    (∀ (now : DateTime) (r : EventRec), wellFormedRec r = true →
        ∃ e, Event.from_dict now r = .ok e ∧ e.to_dict = some r) ∧
      (∀ (now : DateTime) (c : Event), fullyPopulated c = true →
        ∃ rec, c.to_dict = some rec ∧
          ∃ e, Event.from_dict now rec = .ok e ∧ e.pyEq c = true) :=
  ⟨roundtrip_record, roundtrip_event⟩

/-- Witness for C5 (amended) at a concrete well-formed record and a
concrete fully populated candidate. -/
theorem event_record_roundtrips_witness :
    (wellFormedRec wRecGood = true ∧
        ∃ e, Event.from_dict wNow wRecGood = .ok e ∧ e.to_dict = some wRecGood) ∧
      (fullyPopulated wEventFull = true ∧
        ∃ rec, wEventFull.to_dict = some rec ∧
          ∃ e, Event.from_dict wNow rec = .ok e ∧ e.pyEq wEventFull = true) := by
  refine ⟨⟨by decide, event_record_roundtrips.1 wNow wRecGood (by decide)⟩,
    ⟨by decide, event_record_roundtrips.2 wNow wEventFull (by decide)⟩⟩
